import Mathlib

/-!
Shallow embedding of the readiness-scheduler scripts of the `ai-dev-cycle`
repository (`scripts/choose_next_issue.py`, `scripts/check_dependencies.py`,
`scripts/get_next_issue.py`, `scripts/get_prioritized_issues.py`,
`scripts/create_issues.py`).

GitHub issue lifecycle state is two-valued (`open` / `closed`); lookups that
can raise (`repo.get_issue`) are modelled as `Nat → Option _`, with `none`
standing for a raised exception / missing item.  Python `re.findall` over the
fixed dependency patterns is embedded as a left-to-right scanner that at each
position attempts the alternation branches in the pattern's order and, on a
match, resumes after the matched span (Python `findall` semantics for these
patterns, which have no empty matches).
-/

/-- GitHub issue lifecycle state as reported by the tracker: `'open'` or `'closed'`. -/
inductive IssueState where
  | opened
  | closed
deriving DecidableEq

/-- One issue as the scripts see it: number, title, label names, body text,
lifecycle state, and whether the record is actually a pull request
(`issue.pull_request` truthiness, used only by `get_prioritized_issues.py`). -/
structure Issue where
  number : Nat
  title : String
  labels : List String
  body : String
  state : IssueState
  isPR : Bool := false
deriving DecidableEq

/-- Python `\s` restricted to its ASCII fragment (space, TAB, LF, VT, FF, CR);
the bodies the scripts scan separate markers with these. -/
def isPySpace (c : Char) : Bool :=
  c == ' ' || c == '\t' || c == '\n' || c == '\x0b' || c == '\x0c' || c == '\r'

/-- Case-insensitive literal match (Python `re.IGNORECASE`, ASCII folding:
`Char.toLower` is the identity beyond `A`–`Z`, which is exact for the
patterns' literals).  Returns the remainder after the literal. -/
def matchLitCI : List Char → List Char → Option (List Char)
  | [], s => some s
  | _ :: _, [] => none
  | p :: ps, c :: cs => if c.toLower == p.toLower then matchLitCI ps cs else none

/-- Greedy `\s*`. -/
def dropSpaces : List Char → List Char
  | [] => []
  | c :: cs => if isPySpace c then dropSpaces cs else c :: cs

/-- Greedy `\d+` split: longest digit run and the rest. -/
def takeDigits : List Char → List Char × List Char
  | [] => ([], [])
  | c :: cs =>
    if c.isDigit then
      let p := takeDigits cs
      (c :: p.1, p.2)
    else ([], c :: cs)

/-- Python `int` on a digit string. -/
def digitsToNat (ds : List Char) : Nat :=
  ds.foldl (fun a c => a * 10 + (c.toNat - 48)) 0

/-- The common `\s*#(\d+)` tail of the dependency patterns: skip spaces, demand
`#`, capture the following digit run (nonempty). -/
def matchHashNum (s : List Char) : Option (Nat × List Char) :=
  match dropSpaces s with
  | '#' :: rest =>
    match takeDigits rest with
    | ([], _) => none
    | (ds, r) => some (digitsToNat ds, r)
  | _ => none

/-- `:?\s*#(\d+)` with backtracking on the optional ASCII colon: the greedy
attempt consumes the colon first and on failure retries without it (the retry
can only matter when the colon itself is the `#` — never — so this mirrors
Python exactly). -/
def colonTailA (r : List Char) : Option (Nat × List Char) :=
  match r with
  | ':' :: r2 => (matchHashNum r2).orElse (fun _ => matchHashNum r)
  | _ => matchHashNum r

/-- `[:：]?\s*#(\d+)` — as `colonTailA` but the optional colon may also be the
full-width `：` (pattern of `get_prioritized_issues.py`). -/
def colonTailW (r : List Char) : Option (Nat × List Char) :=
  match r with
  | ':' :: r2 => (matchHashNum r2).orElse (fun _ => matchHashNum r)
  | '：' :: r2 => (matchHashNum r2).orElse (fun _ => matchHashNum r)
  | _ => matchHashNum r

/-- One attempt, at the head of `s`, of `choose_next_issue.py`'s pattern
`(?:Depends on|依存:?|依存タスク)\s*#(\d+)` (IGNORECASE).  Branches are tried
in the pattern's order; the branches start with distinct first characters
(`D`/`d` vs `依`), so a branch whose literal matched but whose tail failed
cannot be rescued by a branch of the other group, and among the `依存…`
branches the failed `依存:?` attempt falls through to `依存タスク` exactly as
Python's backtracking does. -/
def tryDep1 (s : List Char) : Option (Nat × List Char) :=
  match matchLitCI "Depends on".data s with
  | some r => matchHashNum r
  | none =>
    match matchLitCI "依存".data s with
    | some r =>
      (colonTailA r).orElse fun _ =>
        match matchLitCI "タスク".data r with
        | some r3 => matchHashNum r3
        | none => none
    | none => none

/-- One attempt of `check_dependencies.py`'s pattern
`(?:Depends on|依存:?)\s*#(\d+)` (IGNORECASE) at the head of `s`. -/
def tryDep2 (s : List Char) : Option (Nat × List Char) :=
  match matchLitCI "Depends on".data s with
  | some r => matchHashNum r
  | none =>
    match matchLitCI "依存".data s with
    | some r => colonTailA r
    | none => none

/-- One attempt of `get_prioritized_issues.py`'s pattern
`(?:Depends on|依存|Requires|Blocks by)[:：]?\s*#(\d+)` (IGNORECASE) at the
head of `s`.  The four alternatives begin with pairwise distinct letters, so
trying them in order with no cross-branch backtracking is exact. -/
def tryDep3 (s : List Char) : Option (Nat × List Char) :=
  match matchLitCI "Depends on".data s with
  | some r => colonTailW r
  | none =>
    match matchLitCI "依存".data s with
    | some r => colonTailW r
    | none =>
      match matchLitCI "Requires".data s with
      | some r => colonTailW r
      | none =>
        match matchLitCI "Blocks by".data s with
        | some r => colonTailW r
        | none => none

/-- The `依存タスク\s*#(\d+)` branch alone — the only part of
`choose_next_issue.py`'s pattern missing from `check_dependencies.py`'s. -/
def tryTask (s : List Char) : Option (Nat × List Char) :=
  match matchLitCI "依存タスク".data s with
  | some r => matchHashNum r
  | none => none

/-- `re.findall` driver: at each position attempt `tm`; on a match emit the
captured number and resume after the match, otherwise advance one character.
Fuel bounds the recursion; every successful `tm` of the three patterns
consumes at least the marker literal, so fuel `= s.length` never runs out. -/
def scanFuel (tm : List Char → Option (Nat × List Char)) : Nat → List Char → List Nat
  | _, [] => []
  | 0, _ :: _ => []
  | fuel + 1, c :: cs =>
    match tm (c :: cs) with
    | some (n, r) => n :: scanFuel tm fuel r
    | none => scanFuel tm fuel cs

/-- All captured dependency numbers of a body, in scan order. -/
def findAllNums (tm : List Char → Option (Nat × List Char)) (s : List Char) : List Nat :=
  scanFuel tm s.length s

/-- `re.findall(r'(?:Depends on|依存:?|依存タスク)\s*#(\d+)', body, IGNORECASE)`
mapped through `int` — `choose_next_issue.py`. -/
def depRefs1 (body : String) : List Nat :=
  findAllNums tryDep1 body.data

/-- `re.findall(r'(?:Depends on|依存:?)\s*#(\d+)', body, IGNORECASE)` mapped
through `int` — `check_dependencies.py`. -/
def depRefs2 (body : String) : List Nat :=
  findAllNums tryDep2 body.data

/-- `re.findall(r'(?:Depends on|依存|Requires|Blocks by)[:：]?\s*#(\d+)', body,
IGNORECASE)` mapped through `int` — `get_prioritized_issues.py`. -/
def depRefs3 (body : String) : List Nat :=
  findAllNums tryDep3 body.data

namespace ChooseNext

/-- `choose_next_issue.deps_resolved`: extract the referenced numbers from the
body (`issue.body or ''`); with no matches return `True`; otherwise every
referenced issue must be fetchable (`repo.get_issue` not raising — `none`
models the exception) and have `state == 'closed'`. -/
def deps_resolved (lookup : Nat → Option IssueState) (body : String) : Bool :=
  let nums := depRefs1 body
  nums.all fun n =>
    match lookup n with
    | some st => st == IssueState.closed
    | none => false

end ChooseNext

namespace CheckDeps

/-- `check_dependencies.check_dependencies` (body part): with no matches
return `True`; otherwise accumulate refs that are `open` or whose fetch raised
(`none`) into `unresolved` and return whether it stayed empty. -/
def check_dependencies (lookup : Nat → Option IssueState) (body : String) : Bool :=
  let ms := depRefs2 body
  if ms.isEmpty then true
  else
    let unresolved := ms.filter fun n =>
      match lookup n with
      | some st => st == IssueState.opened
      | none => true
    unresolved.isEmpty

end CheckDeps

namespace GetPrior

/-- `get_prioritized_issues.check_dependencies`: `issue.body` may be `None` or
empty (`if not issue.body: return True`); a referenced number present in
`all_issues` (the dictionary of collected open issues, `statusOf`) must have
status `"completed"` or `"closed"`, while a number absent from the dictionary
is skipped by the loop — i.e. treated as satisfied. -/
def check_dependencies (statusOf : Nat → Option String) (body : Option String) : Bool :=
  match body with
  | none => true
  | some b =>
    if b.isEmpty then true
    else
      let ms := depRefs3 b
      ms.all fun n =>
        match statusOf n with
        | some st => st == "completed" || st == "closed"
        | none => true

end GetPrior

/-- Lexicographic `≤` on the `(rank, id)` sort keys the scripts hand to
Python's `list.sort` / `sorted`. -/
def keyLe (p q : Nat × Nat) : Prop :=
  p.1 < q.1 ∨ (p.1 = q.1 ∧ p.2 ≤ q.2)

instance (p q : Nat × Nat) : Decidable (keyLe p q) := by
  unfold keyLe; exact inferInstance

namespace ChooseNext

/-- `PRIORITIES = [f"P{i}" for i in range(0, 10)]`. -/
def PRIORITIES : List String :=
  (List.range 10).map fun i => "P" ++ toString i

/-- The loop of `choose_next_issue.prio`:
`for i, p in enumerate(PRIORITIES): if p in labels: return i`, counter `i`
threaded explicitly; falling off the end returns `999`. -/
def prioAux (labels : List String) : Nat → List String → Nat
  | _, [] => 999
  | i, p :: ps => if labels.contains p then i else prioAux labels (i + 1) ps

/-- `choose_next_issue.prio`: the index of the first entry of `PRIORITIES`
that occurs among the issue's label names, else `999`. -/
def prio (labels : List String) : Nat :=
  prioAux labels 0 PRIORITIES

/-- The `(prio(i), i.number)` sort key of `candidates.sort`. -/
def sortKey (i : Issue) : Nat × Nat :=
  (prio i.labels, i.number)

/-- `repo.get_issues(state='open', labels=[repo.get_label('ai:task')])`:
the open issues carrying the `ai:task` label. -/
def candidates (pool : List Issue) : List Issue :=
  pool.filter fun i => i.state == IssueState.opened && i.labels.contains "ai:task"

/-- `candidates.sort(key=lambda i: (prio(i), i.number))`.  Python's sort is
stable; `List.insertionSort` is stable as well (an element is inserted before
the `keyLe`-equivalent elements already placed, which entered from later input
positions), and any two stable sorts by the same total preorder agree. -/
def sortedCandidates (pool : List Issue) : List Issue :=
  (candidates pool).insertionSort fun a b => keyLe (sortKey a) (sortKey b)

/-- The selection loop of `choose_next_issue.main`: the first sorted candidate
whose dependencies are resolved (number printed to stdout), else exit 1
(`none`). -/
def chooseNext (lookup : Nat → Option IssueState) (pool : List Issue) : Option Nat :=
  ((sortedCandidates pool).find? fun i => deps_resolved lookup i.body).map (·.number)

end ChooseNext

namespace GetNext

/-- `PRIORITY_ORDER = {'P0': 0, 'P1': 1, 'P2': 2, 'P3': 3}` read with
`.get(priority, 99)`. -/
def PRIORITY_ORDER (p : String) : Nat :=
  if p == "P0" then 0
  else if p == "P1" then 1
  else if p == "P2" then 2
  else if p == "P3" then 3
  else 99

/-- Python `str.upper()` (ASCII folding; the labels involved are ASCII). -/
def pyUpper (s : String) : String :=
  ⟨s.data.map Char.toUpper⟩

/-- `name.startswith('P')`: the first character is `'P'`. -/
def startsWithP (s : String) : Bool :=
  match s.data with
  | c :: _ => c == 'P'
  | [] => false

/-- `get_next_issue.extract_priority`: the first label whose upper-cased name
starts with `'P'` yields that name's upper-cased first two characters
(`label.name.upper()[:2]`); without such a label the result is `'P9'`. -/
def extract_priority (labels : List String) : String :=
  match labels.find? (fun l => startsWithP (pyUpper l)) with
  | some l => ⟨(pyUpper l).data.take 2⟩
  | none => "P9"

/-- The record written to `out/next_issue.json`. -/
structure NextIssue where
  issue_number : Nat
  title : String
  priority : String
deriving DecidableEq

/-- `f"🎯 強制実行: Issue #{n}"`. -/
def forcedMsg (n : Nat) : String :=
  "🎯 強制実行: Issue #" ++ toString n

/-- `f"⚠️  Issue #{n} は既にクローズされています"` — the message printed when the
forced issue is not open. -/
def closedMsg (n : Nat) : String :=
  "⚠️  Issue #" ++ toString n ++ " は既にクローズされています"

/-- `"\n⏸️  実行可能なIssueがありません"` — the message printed when the
selection loop exhausts the candidates. -/
def noRunnableMsg : String :=
  "\n⏸️  実行可能なIssueがありません"

/-- The per-candidate loop of `get_next_issue`: print the check line; if the
`check_dependencies.py` subprocess exits 0 (`runDeps`), return the record,
else print the wait line and continue; on exhaustion print `noRunnableMsg`.
The returned `List String` is the stdout transcript of the loop. -/
def scanIssues (runDeps : Nat → Bool) : List Issue → Option NextIssue × List String
  | [] => (none, [noRunnableMsg])
  | i :: rest =>
    let pr := extract_priority i.labels
    let checkMsg := "\n🔍 チェック中: Issue #" ++ toString i.number ++ " [" ++ pr ++ "] " ++ i.title
    if runDeps i.number then
      (some ⟨i.number, i.title, pr⟩,
        [checkMsg, "✅ Issue #" ++ toString i.number ++ " は実行可能です"])
    else
      let p := scanIssues runDeps rest
      (p.1, checkMsg :: ("⏸️  Issue #" ++ toString i.number ++ " は依存関係待ちです") :: p.2)

/-- Result of one `get_next_issue()` call: the returned value together with
the printed transcript, or an unhandled exception (`repo.get_issue` raising
on a forced number that does not resolve). -/
inductive Outcome where
  | ok (result : Option NextIssue) (log : List String)
  | crash
deriving DecidableEq

/-- `repo.get_issues(state='open', labels=['ai:ready'])`: the open issues
carrying the `ai:ready` label — the candidate set of the selection loop. -/
def gnReady (pool : List Issue) : List Issue :=
  pool.filter fun i =>
    i.state == IssueState.opened && i.labels.contains "ai:ready"

/-- The sort key `(PRIORITY_ORDER.get(extract_priority(x), 99), x.number)`. -/
def gnKey (i : Issue) : Nat × Nat :=
  (PRIORITY_ORDER (extract_priority i.labels), i.number)

/-- `sorted(issues, key=...)` of `get_next_issue` (stable, see
`ChooseNext.sortedCandidates`). -/
def gnSorted (pool : List Issue) : List Issue :=
  (gnReady pool).insertionSort fun a b => keyLe (gnKey a) (gnKey b)

/-- `get_next_issue.get_next_issue`, with the ambient state made explicit:
`force` is the `FORCE_ISSUE` environment variable, `lookupIssue` the
`repo.get_issue` capability, `pool` the tracker's issues (the function itself
queries the open `ai:ready` subset), and `runDeps n` the exit status of the
`check_dependencies.py` subprocess for issue `n`.  A forced number is fetched
and returned as long as its state is `'open'`, with no dependency or label
check; a closed forced number yields `None` after printing `closedMsg`. -/
def get_next_issue (force : Option Nat) (lookupIssue : Nat → Option Issue)
    (pool : List Issue) (runDeps : Nat → Bool) : Outcome :=
  match force with
  | some n =>
    match lookupIssue n with
    | none => .crash
    | some issue =>
      if issue.state == IssueState.opened then
        .ok (some ⟨n, issue.title, extract_priority issue.labels⟩) [forcedMsg n]
      else
        .ok none [closedMsg n]
  | none =>
    let sorted := gnSorted pool
    let header := "📋 ai:ready ラベルのIssue: " ++ toString sorted.length ++ "件"
    let p := scanIssues runDeps sorted
    .ok p.1 (header :: p.2)

end GetNext

namespace GetPrior

/-- Python `\w` as used by the `\b` boundaries of `r'\b(P[0-2])\b'`: ASCII
alphanumerics and `_`, extended with the Japanese ranges (Hiragana, Katakana,
CJK ideographs) occurring in the scripts' bodies; full-width punctuation such
as `：` is not a word character, as in Python. -/
def isWordChar (c : Char) : Bool :=
  c.isAlphanum || c == '_' ||
    (0x3040 ≤ c.toNat && c.toNat ≤ 0x30FF) ||
    (0x4E00 ≤ c.toNat && c.toNat ≤ 0x9FFF)

/-- `re.search(r'\b(P[0-2])\b', body)` (case-sensitive): the leftmost
occurrence of `P0`/`P1`/`P2` enclosed in word boundaries; `prev` carries the
character preceding the current position (`none` at the string start). -/
def searchP02 (prev : Option Char) : List Char → Option String
  | [] => none
  | c :: rest =>
    if c == 'P' && !(match prev with | some p => isWordChar p | none => false) then
      match rest with
      | d :: rest2 =>
        if (d == '0' || d == '1' || d == '2')
            && !(match rest2 with | r :: _ => isWordChar r | [] => false) then
          some ⟨[c, d]⟩
        else searchP02 (some c) (d :: rest2)
      | [] => none
    else searchP02 (some c) rest

/-- Python's substring test (`needle in haystack`). -/
def hasSub (needle : List Char) : List Char → Bool
  | [] => needle.isEmpty
  | c :: rest => needle.isPrefixOf (c :: rest) || hasSub needle rest

/-- `get_prioritized_issues.extract_priority`: a falsy body yields `"P2"`;
else the first `\b(P[0-2])\b` match; else the Japanese urgency keywords; else
`"P2"`. -/
def extract_priority (body : Option String) : String :=
  match body with
  | none => "P2"
  | some b =>
    if b.isEmpty then "P2"
    else
      match searchP02 none b.data with
      | some p => p
      | none =>
        if hasSub "最高優先".data b.data || hasSub "緊急".data b.data then "P0"
        else if hasSub "高優先".data b.data then "P1"
        else "P2"

/-- The label sets of `get_issue_status`, in precedence order. -/
def progressLabels : List String :=
  ["ai:implementing", "ai:pr-created", "ai:completed", "done", "closed"]

/-- Failure markers → `needs_human_intervention`. -/
def failureLabels : List String :=
  ["ai:failed", "ai:test-failed", "ai:review-failed", "ai:security-failed", "ai:pr-failed"]

/-- Explicit block/wait markers. -/
def blockedLabels : List String :=
  ["blocked", "waiting", "dependency"]

/-- Skip markers. -/
def skipLabels : List String :=
  ["wontfix", "duplicate", "skip"]

/-- `get_prioritized_issues.get_issue_status`: fixed precedence of marker
sets over the issue's label names. -/
def get_issue_status (labels : List String) : String :=
  if progressLabels.any (labels.contains ·) then "in_progress"
  else if failureLabels.any (labels.contains ·) then "needs_human_intervention"
  else if blockedLabels.any (labels.contains ·) then "blocked"
  else if skipLabels.any (labels.contains ·) then "skip"
  else "ready"

/-- One entry of `issue_list` / `all_issues_dict` (the fields the scheduler
reads; `created_at`/`updated_at` are carried along unused). -/
structure IssueData where
  number : Nat
  title : String
  priority : String
  status : String
  labels : List String
deriving DecidableEq

/-- The collection loop of `main`: open issues that are not pull requests,
each mapped to its data record.  (`issue.body` is a `String` here with `""`
for Python's `None`; the two are indistinguishable to every consumer, which
only tests falsiness.) -/
def collect (pool : List Issue) : List Issue :=
  pool.filter fun i => i.state == IssueState.opened && !i.isPR

/-- The data record built for one collected issue. -/
def dataOf (i : Issue) : IssueData :=
  { number := i.number
    title := i.title
    priority := extract_priority (some i.body)
    status := get_issue_status i.labels
    labels := i.labels }

/-- `all_issues_dict[n]["status"]`: dictionary insertion overwrites, so the
last collected issue with a given number wins. -/
def statusDict (pool : List Issue) (n : Nat) : Option String :=
  (((collect pool).map dataOf).reverse.find? fun d => d.number == n).map (·.status)

/-- The dependency pass of `main`: a `"ready"` record whose re-fetched issue
fails `check_dependencies` against `all_issues_dict` becomes
`"blocked_by_dependency"`.  Python mutates the shared record dicts during this
loop, but the rewritten value, like `"ready"`, is not in
`{"completed", "closed"}`, so later verdicts are unchanged and the
pre-rewrite dictionary is observationally exact. -/
def gpProcess (pool : List Issue) : List IssueData :=
  (collect pool).map fun i =>
    let d := dataOf i
    if d.status == "ready" && !check_dependencies (statusDict pool) (some i.body) then
      { d with status := "blocked_by_dependency" }
    else d

/-- `priority_order = {"P0": 0, "P1": 1, "P2": 2}` read with `.get(p, 2)`. -/
def priority_order (p : String) : Nat :=
  if p == "P0" then 0
  else if p == "P1" then 1
  else if p == "P2" then 2
  else 2

/-- `issue_list.sort(key=lambda x: (priority_order.get(x["priority"], 2),
x["number"]))` (stable, see `ChooseNext.sortedCandidates`). -/
def gpSorted (pool : List Issue) : List IssueData :=
  (gpProcess pool).insertionSort fun a b =>
    keyLe (priority_order a.priority, a.number) (priority_order b.priority, b.number)

/-- The reported next target (no forced override): the first record of the
sorted list whose status is `"ready"`, shown only when `ready_count > 0` —
i.e. exactly when such a record exists. -/
def gpNext (pool : List Issue) : Option Nat :=
  ((gpSorted pool).find? fun d => d.status == "ready").map (·.number)

/-- The forced-override scan of `main` (`for i, issue_data in
enumerate(issue_list): if issue_data["number"] == force_num: ...; break`):
locate the first record with the forced number, returning it and the list
without it. -/
def gpForceFront (fn : Nat) : List IssueData → Option (IssueData × List IssueData)
  | [] => none
  | d :: rest =>
    if d.number == fn then some (d, rest)
    else
      match gpForceFront fn rest with
      | some (x, rest2) => some (x, d :: rest2)
      | none => none

/-- `issue_list.insert(0, issue_list.pop(i))` followed by
`issue_data["status"] = "ready"` — the matched record (if any) moves to the
front with its status forced to `"ready"`; with no match the list is
unchanged and nothing else happens. -/
def gpApplyForce (force : Option Nat) (l : List IssueData) : List IssueData :=
  match force with
  | none => l
  | some fn =>
    match gpForceFront fn l with
    | some (d, rest) => { d with status := "ready" } :: rest
    | none => l

/-- The reported next target of `main` with the `FORCE_ISSUE` override
applied: the first `"ready"` record of the (possibly force-reordered) sorted
list. -/
def gpNextForce (force : Option Nat) (pool : List Issue) : Option Nat :=
  ((gpApplyForce force (gpSorted pool)).find? fun d => d.status == "ready").map (·.number)

end GetPrior

/-- The characters at which none of the three dependency patterns can start a
match: the alternation branches open (case-insensitively) with `D`, `依`, `R`
or `B` only. -/
def safeChar (c : Char) : Bool :=
  !(c.toLower == 'd' || c.toLower == '依' || c.toLower == 'r' || c.toLower == 'b')

/-- `", ".join(f"#{num}" for num in dep_nums)` of `create_issues.py`, over the
decimal digit strings of the issue numbers. -/
def depNumsText : List (List Char) → List Char
  | [] => []
  | [ds] => '#' :: ds
  | ds :: rest => '#' :: ds ++ ',' :: ' ' :: depNumsText rest

/-- The dependency line `create_issues.py` appends to an issue body in its
second pass: `f"\n\n**依存タスク**: " + ", ".join(dep_nums) + "\n"`. -/
def depLine (dss : List (List Char)) : List Char :=
  "\n\n**依存タスク**: ".data ++ depNumsText dss ++ ['\n']

/-! ## Generic helper lemmas -/

theorem keyLe_total (p q : Nat × Nat) : keyLe p q ∨ keyLe q p := by
  unfold keyLe; omega

theorem keyLe_trans {p q r : Nat × Nat} (h1 : keyLe p q) (h2 : keyLe q r) : keyLe p r := by
  unfold keyLe at *; omega

theorem keyLe_antisymm {p q : Nat × Nat} (h1 : keyLe p q) (h2 : keyLe q p) : p = q := by
  unfold keyLe at *
  obtain ⟨a, b⟩ := p
  obtain ⟨c, d⟩ := q
  simp only [Prod.mk.injEq]
  omega


theorem bool_eq_of_iff {a b : Bool} (h : a = true ↔ b = true) : a = b := by
  cases a <;> cases b <;> simp_all

/-- The per-reference test of `deps_resolved` succeeds exactly on a closed item. -/
theorem closedCheck_iff (lookup : Nat → Option IssueState) (n : Nat) :
    ((match lookup n with
      | some st => st == IssueState.closed
      | none => false) = true) ↔ lookup n = some IssueState.closed := by
  cases h : lookup n with
  | none => simp
  | some st => cases st <;> simp

/-- The `unresolved` filter of `check_dependencies.py` keeps exactly the
references that do not resolve to a closed item. -/
theorem openCheck_iff (lookup : Nat → Option IssueState) (n : Nat) :
    ((match lookup n with
      | some st => st == IssueState.opened
      | none => true) = true) ↔ ¬ lookup n = some IssueState.closed := by
  cases h : lookup n with
  | none => simp
  | some st => cases st <;> simp

/-- `check_dependencies.py`'s accumulate-then-test loop computes the same
boolean as the all-references-closed test. -/
theorem check_dependencies_eq_all (lookup : Nat → Option IssueState) (body : String) :
    CheckDeps.check_dependencies lookup body =
      (depRefs2 body).all fun n =>
        match lookup n with
        | some st => st == IssueState.closed
        | none => false := by
  apply bool_eq_of_iff
  show (if (depRefs2 body).isEmpty then true
    else ((depRefs2 body).filter fun n =>
      match lookup n with
      | some st => st == IssueState.opened
      | none => true).isEmpty) = true ↔ _
  by_cases h : depRefs2 body = []
  · simp [h]
  · rw [if_neg (by simp [List.isEmpty_iff, h])]
    rw [List.isEmpty_iff, List.filter_eq_nil_iff, List.all_eq_true]
    constructor
    · intro hall n hn
      exact (closedCheck_iff lookup n).2 (not_not.1 ((openCheck_iff lookup n).not.1 (hall n hn)))
    · intro hall n hn
      exact (openCheck_iff lookup n).not.2 (not_not.2 ((closedCheck_iff lookup n).1 (hall n hn)))

/-- Claim C1: for every work item body and every lookup state, the dependency
resolvers `deps_resolved` (choose_next_issue.py) and `check_dependencies`
(check_dependencies.py) return `true` iff the list of reference ids extracted
from the body is empty, or every extracted id resolves via the lookup to an
item whose lifecycle state is `closed`; an id resolving to an open item or a
failing lookup yields `false`, and zero extracted references is vacuously
resolved. -/
theorem C1_dependency_resolver_iff (lookup : Nat → Option IssueState) (body : String) :
    (ChooseNext.deps_resolved lookup body = true ↔
      (depRefs1 body = [] ∨ ∀ n ∈ depRefs1 body, lookup n = some IssueState.closed))
    ∧ (CheckDeps.check_dependencies lookup body = true ↔
      (depRefs2 body = [] ∨ ∀ n ∈ depRefs2 body, lookup n = some IssueState.closed)) := by
  constructor
  · show ((depRefs1 body).all fun n =>
      match lookup n with
      | some st => st == IssueState.closed
      | none => false) = true ↔ _
    rw [List.all_eq_true]
    constructor
    · intro h
      exact Or.inr fun n hn => (closedCheck_iff lookup n).1 (h n hn)
    · rintro (h | h)
      · intro n hn
        rw [h] at hn
        cases hn
      · intro n hn
        exact (closedCheck_iff lookup n).2 (h n hn)
  · rw [check_dependencies_eq_all, List.all_eq_true]
    constructor
    · intro h
      exact Or.inr fun n hn => (closedCheck_iff lookup n).1 (h n hn)
    · rintro (h | h)
      · intro n hn
        rw [h] at hn
        cases hn
      · intro n hn
        exact (closedCheck_iff lookup n).2 (h n hn)

/-- Claim C3 counterexample: the body `"Depends on #5"` declares the single
reference `5`; with a lookup state in which id `5` resolves to nothing at all
(the open-issue dictionary of `get_prioritized_issues.py` does not contain
it), `check_dependencies` of that script nevertheless reports the item
unblocked (`True`), so a failed lookup is counted as satisfied there. -/
theorem C3_counterexample :
    depRefs3 "Depends on #5" = [5]
    ∧ GetPrior.check_dependencies (fun _ => none) (some "Depends on #5") = true := by
  decide

/-- Claim C3 (amended): a referenced id whose lookup fails blocks the item in
`deps_resolved` (choose_next_issue.py) and in `check_dependencies`
(check_dependencies.py); but in `check_dependencies` of
get_prioritized_issues.py a referenced id absent from the collected
open-issue dictionary never blocks: if every extracted reference is absent
the item is reported unblocked. -/
theorem C3_lookup_failure_blocks :
    (∀ (lookup : Nat → Option IssueState) (body : String) (n : Nat),
        n ∈ depRefs1 body → lookup n = none →
        ChooseNext.deps_resolved lookup body = false)
    ∧ (∀ (lookup : Nat → Option IssueState) (body : String) (n : Nat),
        n ∈ depRefs2 body → lookup n = none →
        CheckDeps.check_dependencies lookup body = false)
    ∧ (∀ (statusOf : Nat → Option String) (body : String),
        (∀ n ∈ depRefs3 body, statusOf n = none) →
        GetPrior.check_dependencies statusOf (some body) = true) := by
  refine ⟨?_, ?_, ?_⟩
  · intro lookup body n hn hl
    show ((depRefs1 body).all fun n =>
      match lookup n with
      | some st => st == IssueState.closed
      | none => false) = false
    rw [List.all_eq_false]
    exact ⟨n, hn, by simp [hl]⟩
  · intro lookup body n hn hl
    rw [check_dependencies_eq_all, List.all_eq_false]
    exact ⟨n, hn, by simp [hl]⟩
  · intro statusOf body h
    show (if body.isEmpty then true
      else (depRefs3 body).all fun n =>
        match statusOf n with
        | some st => st == "completed" || st == "closed"
        | none => true) = true
    by_cases he : body.isEmpty
    · simp [he]
    · rw [if_neg he, List.all_eq_true]
      intro n hn
      simp [h n hn]

/-- Concrete instantiation of `C3_lookup_failure_blocks`. -/
theorem C3_witness :
    ChooseNext.deps_resolved (fun _ => none) "Depends on #9" = false
    ∧ CheckDeps.check_dependencies (fun _ => none) "依存: #9" = false
    ∧ GetPrior.check_dependencies (fun _ => none) (some "Depends on #9") = true :=
  ⟨C3_lookup_failure_blocks.1 (fun _ => none) "Depends on #9" 9 (by decide) rfl,
   C3_lookup_failure_blocks.2.1 (fun _ => none) "依存: #9" 9 (by decide) rfl,
   C3_lookup_failure_blocks.2.2 (fun _ => none) "Depends on #9" (fun _ _ => rfl)⟩

/-- Claim C6 counterexample: the label `"P0-critical"` is not in the fixed
priority set, yet `get_next_issue.extract_priority` truncates it to `"P0"`
and it receives the best rank `0`, strictly better than the no-label rank
`99`; and `get_prioritized_issues.extract_priority` assigns `"P0"` from a
priority token appearing only in the body text. -/
theorem C6_counterexample :
    GetNext.extract_priority ["P0-critical"] = "P0"
    ∧ GetNext.PRIORITY_ORDER (GetNext.extract_priority ["P0-critical"]) = 0
    ∧ GetNext.PRIORITY_ORDER (GetNext.extract_priority []) = 99
    ∧ GetPrior.extract_priority (some "fix P0 bug") = "P0"
    ∧ ChooseNext.prio ["P0-critical"] = 999 := by
  decide

/-- A priority loop over labels containing none of the scanned tags falls
through to `999`. -/
theorem prioAux_of_none (labels : List String) :
    ∀ (ps : List String) (i : Nat), (∀ p ∈ ps, labels.contains p = false) →
      ChooseNext.prioAux labels i ps = 999 := by
  intro ps
  induction ps with
  | nil => intro i _; rfl
  | cons p ps ih =>
    intro i h
    show (if labels.contains p then i else ChooseNext.prioAux labels (i + 1) ps) = 999
    rw [h p (List.mem_cons_self p ps), if_neg (by simp)]
    exact ih (i + 1) fun q hq => h q (List.mem_cons_of_mem p hq)

/-- The priority loop either falls through to `999` or stops at the first
scanned tag present among the labels, returning its offset. -/
theorem prioAux_cases (labels : List String) :
    ∀ (ps : List String) (i : Nat),
      ChooseNext.prioAux labels i ps = 999 ∨
      ∃ j, j < ps.length ∧ ChooseNext.prioAux labels i ps = i + j ∧
        labels.contains (ps.getD j "") = true ∧
        ∀ m < j, labels.contains (ps.getD m "") = false := by
  intro ps
  induction ps with
  | nil => intro i; exact Or.inl rfl
  | cons p ps ih =>
    intro i
    have hcons : ∀ k, ChooseNext.prioAux labels k (p :: ps) =
        if labels.contains p then k else ChooseNext.prioAux labels (k + 1) ps :=
      fun _ => rfl
    by_cases h : labels.contains p = true
    · refine Or.inr ⟨0, by simp, ?_, ?_, ?_⟩
      · rw [hcons, if_pos h]; omega
      · simpa using h
      · intro m hm; cases hm
    · rcases ih (i + 1) with h9 | ⟨j, hj, heq, hc, hm⟩
      · exact Or.inl (by rw [hcons, if_neg h]; exact h9)
      · refine Or.inr ⟨j + 1, by simpa using Nat.succ_lt_succ hj,
          by rw [hcons, if_neg h, heq]; omega, by simpa using hc, ?_⟩
        intro m hmlt
        cases m with
        | zero => simpa using Bool.eq_false_iff.mpr h
        | succ m => simpa using hm m (Nat.lt_of_succ_lt_succ hmlt)

/-- The ten recognized priority tags, positionally. -/
theorem PRIORITIES_getD (j : Nat) (hj : j < 10) :
    ChooseNext.PRIORITIES.getD j "" = "P" ++ toString j := by
  interval_cases j <;> rfl

/-- Claim C6 (amended): only `choose_next_issue.prio` implements the
exact-match rule: the rank is `999` when no label is exactly one of
`P0`–`P9` (numerically worse than every recognized rank, which is below
`10`), and otherwise it is the index of the first recognized tag present,
which occurs verbatim among the labels; no error is possible (the function is
total).  `get_next_issue.extract_priority` instead truncates any label whose
uppercase starts with `P`, and `get_prioritized_issues.extract_priority`
reads the token from the body — see the counterexample. -/
theorem C6_exact_label_rank (labels : List String) :
    ((∀ p ∈ ChooseNext.PRIORITIES, labels.contains p = false) →
      ChooseNext.prio labels = 999)
    ∧ (ChooseNext.prio labels = 999 ∨
      (ChooseNext.prio labels < 10 ∧
        labels.contains ("P" ++ toString (ChooseNext.prio labels)) = true ∧
        ∀ j < ChooseNext.prio labels, labels.contains ("P" ++ toString j) = false)) := by
  constructor
  · intro h
    exact prioAux_of_none labels ChooseNext.PRIORITIES 0 h
  · rcases prioAux_cases labels ChooseNext.PRIORITIES 0 with h9 | ⟨j, hj, heq, hc, hm⟩
    · exact Or.inl h9
    · have hlen : ChooseNext.PRIORITIES.length = 10 := rfl
      rw [hlen] at hj
      have hval : ChooseNext.prio labels = j := by
        simpa using heq
      refine Or.inr ⟨by omega, ?_, ?_⟩
      · rw [hval, ← PRIORITIES_getD j hj]
        exact hc
      · intro m hm2
        rw [hval] at hm2
        rw [← PRIORITIES_getD m (by omega)]
        exact hm m hm2

/-- Concrete instantiation of `C6_exact_label_rank`. -/
theorem C6_witness :
    ChooseNext.prio ["feature", "Px"] = 999
    ∧ (ChooseNext.prio ["P3", "P7"] = 999 ∨
      (ChooseNext.prio ["P3", "P7"] < 10 ∧
        ["P3", "P7"].contains ("P" ++ toString (ChooseNext.prio ["P3", "P7"])) = true ∧
        ∀ j < ChooseNext.prio ["P3", "P7"], ["P3", "P7"].contains ("P" ++ toString j) = false)) :=
  ⟨(C6_exact_label_rank ["feature", "Px"]).1 (by decide),
   (C6_exact_label_rank ["P3", "P7"]).2⟩

/-! ## Recognition lemmas for the dependency markers (C7) -/

/-- A case-insensitive literal consumes any string whose lower-casing agrees
with the pattern's, leaving the remainder. -/
theorem matchLitCI_append (pat : List Char) :
    ∀ (m rest : List Char), m.map Char.toLower = pat.map Char.toLower →
      matchLitCI pat (m ++ rest) = some rest := by
  induction pat with
  | nil =>
    intro m rest h
    have : m = [] := by
      cases m with
      | nil => rfl
      | cons c cs => simp at h
    subst this
    rfl
  | cons p ps ih =>
    intro m rest h
    cases m with
    | nil => simp at h
    | cons c cs =>
      simp only [List.map_cons, List.cons.injEq] at h
      show (if c.toLower == p.toLower then matchLitCI ps (cs ++ rest) else none) = some rest
      rw [if_pos (by simp [h.1]), ih cs rest h.2]

/-- A run of digit characters is consumed whole by the greedy `\d+`. -/
theorem takeDigits_all (ds : List Char) (h : ∀ c ∈ ds, c.isDigit = true) :
    takeDigits ds = (ds, []) := by
  induction ds with
  | nil => rfl
  | cons c cs ih =>
    show (if c.isDigit then ((takeDigits cs).1.cons c, (takeDigits cs).2) else ([], c :: cs)) = _
    rw [if_pos (by simp [h c (List.mem_cons_self c cs)]),
      ih fun d hd => h d (List.mem_cons_of_mem c hd)]

/-- `#` followed by exactly a digit run: the capture is the whole run. -/
theorem matchHashNum_hash (ds : List Char) (hne : ds ≠ []) (h : ∀ c ∈ ds, c.isDigit = true) :
    matchHashNum ('#' :: ds) = some (digitsToNat ds, []) := by
  have h1 : matchHashNum ('#' :: ds) =
      (match takeDigits ds with
        | ([], _) => none
        | (es, r) => some (digitsToNat es, r)) := rfl
  rw [h1, takeDigits_all ds h]
  cases ds with
  | nil => exact absurd rfl hne
  | cons c cs => rfl

/-- As `matchHashNum_hash` with one leading blank absorbed by `\s*`. -/
theorem matchHashNum_space_hash (ds : List Char) (hne : ds ≠ []) (h : ∀ c ∈ ds, c.isDigit = true) :
    matchHashNum (' ' :: '#' :: ds) = some (digitsToNat ds, []) := by
  have : dropSpaces (' ' :: '#' :: ds) = dropSpaces ('#' :: ds) := rfl
  show (match dropSpaces (' ' :: '#' :: ds) with
    | '#' :: rest =>
      match takeDigits rest with
      | ([], _) => none
      | (es, r) => some (digitsToNat es, r)
    | _ => none) = _
  rw [this]
  exact matchHashNum_hash ds hne h

/-- `"depends on"` is the lower-casing of the English marker literal. -/
theorem depends_lower :
    "depends on".data = "Depends on".data.map Char.toLower := by
  decide

/-- An English marker in any letter case, one blank, `#`, digits: recognized
by `check_dependencies.py`'s matcher with the digits as capture. -/
theorem tryDep2_english (m ds : List Char) (hm : m.map Char.toLower = "depends on".data)
    (hne : ds ≠ []) (h : ∀ c ∈ ds, c.isDigit = true) :
    tryDep2 (m ++ ' ' :: '#' :: ds) = some (digitsToNat ds, []) := by
  show (match matchLitCI "Depends on".data (m ++ ' ' :: '#' :: ds) with
    | some r => matchHashNum r
    | none =>
      match matchLitCI "依存".data (m ++ ' ' :: '#' :: ds) with
      | some r => colonTailA r
      | none => none) = _
  rw [matchLitCI_append "Depends on".data m (' ' :: '#' :: ds) (by rw [hm, depends_lower])]
  exact matchHashNum_space_hash ds hne h

/-- As `tryDep2_english` for `choose_next_issue.py`'s matcher. -/
theorem tryDep1_english (m ds : List Char) (hm : m.map Char.toLower = "depends on".data)
    (hne : ds ≠ []) (h : ∀ c ∈ ds, c.isDigit = true) :
    tryDep1 (m ++ ' ' :: '#' :: ds) = some (digitsToNat ds, []) := by
  show (match matchLitCI "Depends on".data (m ++ ' ' :: '#' :: ds) with
    | some r => matchHashNum r
    | none =>
      match matchLitCI "依存".data (m ++ ' ' :: '#' :: ds) with
      | some r =>
        (colonTailA r).orElse fun _ =>
          match matchLitCI "タスク".data r with
          | some r3 => matchHashNum r3
          | none => none
      | none => none) = _
  rw [matchLitCI_append "Depends on".data m (' ' :: '#' :: ds) (by rw [hm, depends_lower])]
  exact matchHashNum_space_hash ds hne h

/-- The localized marker `依存`, optional colon, one blank, `#`, digits:
recognized by `check_dependencies.py`'s matcher. -/
theorem tryDep2_japanese (ds : List Char) (hne : ds ≠ []) (h : ∀ c ∈ ds, c.isDigit = true) :
    tryDep2 ('依' :: '存' :: ':' :: ' ' :: '#' :: ds) = some (digitsToNat ds, [])
    ∧ tryDep2 ('依' :: '存' :: ' ' :: '#' :: ds) = some (digitsToNat ds, []) := by
  have hhash := matchHashNum_space_hash ds hne h
  constructor
  · show colonTailA (':' :: ' ' :: '#' :: ds) = _
    show (matchHashNum (' ' :: '#' :: ds)).orElse (fun _ => matchHashNum (':' :: ' ' :: '#' :: ds)) = _
    rw [hhash]
    rfl
  · show colonTailA (' ' :: '#' :: ds) = _
    show matchHashNum (' ' :: '#' :: ds) = _
    exact hhash

/-- As `tryDep2_japanese` for `choose_next_issue.py`'s matcher. -/
theorem tryDep1_japanese (ds : List Char) (hne : ds ≠ []) (h : ∀ c ∈ ds, c.isDigit = true) :
    tryDep1 ('依' :: '存' :: ':' :: ' ' :: '#' :: ds) = some (digitsToNat ds, [])
    ∧ tryDep1 ('依' :: '存' :: ' ' :: '#' :: ds) = some (digitsToNat ds, []) := by
  have hhash := matchHashNum_space_hash ds hne h
  constructor
  · show ((matchHashNum (' ' :: '#' :: ds)).orElse
        (fun _ => matchHashNum (':' :: ' ' :: '#' :: ds))).orElse _ = _
    rw [hhash]
    rfl
  · show (matchHashNum (' ' :: '#' :: ds)).orElse _ = _
    rw [hhash]
    rfl

/-- A body consisting of one whole-string marker match scans to exactly the
captured number. -/
theorem findAllNums_single (tm : List Char → Option (Nat × List Char)) (s : List Char) (n : Nat)
    (hs : s ≠ []) (h : tm s = some (n, [])) : findAllNums tm s = [n] := by
  cases s with
  | nil => exact absurd rfl hs
  | cons c cs =>
    show scanFuel tm (c :: cs).length (c :: cs) = [n]
    rw [List.length_cons]
    simp [scanFuel, h]

/-- A boolean `all` over a list equals the `all` over its deduplication. -/
theorem all_eq_all_dedup (l : List Nat) (p : Nat → Bool) : l.all p = l.dedup.all p := by
  apply bool_eq_of_iff
  rw [List.all_eq_true, List.all_eq_true]
  constructor
  · intro h x hx
    exact h x (List.mem_dedup.1 hx)
  · intro h x hx
    exact h x (List.mem_dedup.2 hx)

/-- Claim C7: the extraction patterns of `deps_resolved` and
`check_dependencies` recognize the English marker `Depends on #<n>` in any
letter case and the localized marker `依存` with an optional colon followed by
`#<n>`, capturing the digits; and the extracted reference list behaves as the
set of distinct referenced integers: two bodies with the same deduplicated
reference list receive the same verdict, so duplicate occurrences never
change it. -/
theorem C7_marker_recognition :
    (∀ (m ds : List Char), m.map Char.toLower = "depends on".data → ds ≠ [] →
      (∀ c ∈ ds, c.isDigit = true) →
      depRefs1 ⟨m ++ ' ' :: '#' :: ds⟩ = [digitsToNat ds]
      ∧ depRefs2 ⟨m ++ ' ' :: '#' :: ds⟩ = [digitsToNat ds])
    ∧ (∀ ds : List Char, ds ≠ [] → (∀ c ∈ ds, c.isDigit = true) →
      depRefs1 ⟨'依' :: '存' :: ':' :: ' ' :: '#' :: ds⟩ = [digitsToNat ds]
      ∧ depRefs2 ⟨'依' :: '存' :: ':' :: ' ' :: '#' :: ds⟩ = [digitsToNat ds]
      ∧ depRefs1 ⟨'依' :: '存' :: ' ' :: '#' :: ds⟩ = [digitsToNat ds]
      ∧ depRefs2 ⟨'依' :: '存' :: ' ' :: '#' :: ds⟩ = [digitsToNat ds])
    ∧ (∀ (lookup : Nat → Option IssueState) (b₁ b₂ : String),
      (depRefs1 b₁).dedup = (depRefs1 b₂).dedup →
      ChooseNext.deps_resolved lookup b₁ = ChooseNext.deps_resolved lookup b₂)
    ∧ (∀ (lookup : Nat → Option IssueState) (b₁ b₂ : String),
      (depRefs2 b₁).dedup = (depRefs2 b₂).dedup →
      CheckDeps.check_dependencies lookup b₁ = CheckDeps.check_dependencies lookup b₂) := by
  refine ⟨?_, ?_, ?_, ?_⟩
  · intro m ds hm hne h
    constructor
    · exact findAllNums_single tryDep1 _ _ (by simp) (tryDep1_english m ds hm hne h)
    · exact findAllNums_single tryDep2 _ _ (by simp) (tryDep2_english m ds hm hne h)
  · intro ds hne h
    refine ⟨?_, ?_, ?_, ?_⟩
    · exact findAllNums_single tryDep1 _ _ (by simp) (tryDep1_japanese ds hne h).1
    · exact findAllNums_single tryDep2 _ _ (by simp) (tryDep2_japanese ds hne h).1
    · exact findAllNums_single tryDep1 _ _ (by simp) (tryDep1_japanese ds hne h).2
    · exact findAllNums_single tryDep2 _ _ (by simp) (tryDep2_japanese ds hne h).2
  · intro lookup b₁ b₂ hd
    show (depRefs1 b₁).all _ = (depRefs1 b₂).all _
    rw [all_eq_all_dedup, hd, ← all_eq_all_dedup]
  · intro lookup b₁ b₂ hd
    rw [check_dependencies_eq_all, check_dependencies_eq_all,
      all_eq_all_dedup, hd, ← all_eq_all_dedup]

/-- Concrete instantiation of `C7_marker_recognition`. -/
theorem C7_witness :
    depRefs1 ⟨"DePeNdS oN".data ++ ' ' :: '#' :: ['4', '2']⟩ = [digitsToNat ['4', '2']]
    ∧ depRefs2 ⟨'依' :: '存' :: ':' :: ' ' :: '#' :: ['7']⟩ = [digitsToNat ['7']]
    ∧ ChooseNext.deps_resolved (fun _ => some IssueState.closed) "Depends on #4 Depends on #4"
      = ChooseNext.deps_resolved (fun _ => some IssueState.closed) "Depends on #4" :=
  ⟨(C7_marker_recognition.1 "DePeNdS oN".data ['4', '2'] (by decide) (by decide) (by decide)).1,
   (C7_marker_recognition.2.1 ['7'] (by decide) (by decide)).2.1,
   C7_marker_recognition.2.2.1 (fun _ => some IssueState.closed)
     "Depends on #4 Depends on #4" "Depends on #4" (by decide)⟩

/-! ## Agreement of the two near-duplicate resolvers (C9) -/

/-- A case-insensitive literal leaves a suffix of its input. -/
theorem matchLitCI_suffix : ∀ (pat s r : List Char), matchLitCI pat s = some r → r <:+ s := by
  intro pat
  induction pat with
  | nil =>
    intro s r h
    have : s = r := by simpa [matchLitCI] using h
    subst this
    exact List.suffix_refl s
  | cons p ps ih =>
    intro s r h
    cases s with
    | nil => simp [matchLitCI] at h
    | cons c cs =>
      by_cases hc : (c.toLower == p.toLower) = true
      · have h' : matchLitCI ps cs = some r := by
          simpa [matchLitCI, hc] using h
        exact (ih cs r h').trans (List.suffix_cons c cs)
      · simp [matchLitCI, hc] at h

/-- `\s*` leaves a suffix. -/
theorem dropSpaces_suffix : ∀ s : List Char, dropSpaces s <:+ s := by
  intro s
  induction s with
  | nil => exact List.suffix_refl []
  | cons c cs ih =>
    by_cases hc : isPySpace c = true
    · have : dropSpaces (c :: cs) = dropSpaces cs := by simp [dropSpaces, hc]
      rw [this]
      exact ih.trans (List.suffix_cons c cs)
    · have : dropSpaces (c :: cs) = c :: cs := by simp [dropSpaces, hc]
      rw [this]

/-- `\d+` leaves a suffix. -/
theorem takeDigits_suffix : ∀ s : List Char, (takeDigits s).2 <:+ s := by
  intro s
  induction s with
  | nil => exact List.suffix_refl []
  | cons c cs ih =>
    by_cases hc : c.isDigit = true
    · have : (takeDigits (c :: cs)).2 = (takeDigits cs).2 := by simp [takeDigits, hc]
      rw [this]
      exact ih.trans (List.suffix_cons c cs)
    · have : (takeDigits (c :: cs)).2 = c :: cs := by simp [takeDigits, hc]
      rw [this]

/-- The `\s*#(\d+)` tail leaves a suffix. -/
theorem matchHashNum_suffix (s : List Char) (n : Nat) (r : List Char)
    (h : matchHashNum s = some (n, r)) : r <:+ s := by
  unfold matchHashNum at h
  split at h
  · rename_i rest heq
    split at h
    · cases h
    · rename_i ds r2 hne heq2
      injection h with hh
      have hr : r2 = r := congrArg Prod.snd hh
      have hr2 : r <:+ rest := by
        have := takeDigits_suffix rest
        rw [heq2] at this
        rw [← hr]
        exact this
      have hrest : '#' :: rest <:+ s := by
        rw [← heq]
        exact dropSpaces_suffix s
      exact (hr2.trans (List.suffix_cons '#' rest)).trans hrest
  · cases h

/-- The optional-colon tail leaves a suffix. -/
theorem colonTailA_suffix (s : List Char) (n : Nat) (r : List Char)
    (h : colonTailA s = some (n, r)) : r <:+ s := by
  unfold colonTailA at h
  split at h
  · rename_i r2
    cases h2 : matchHashNum r2 with
    | some v =>
      rw [h2] at h
      have hv : v = (n, r) := by
        cases h
        rfl
      subst hv
      exact (matchHashNum_suffix r2 n r h2).trans (List.suffix_cons ':' r2)
    | none =>
      rw [h2] at h
      have h3 : matchHashNum (':' :: r2) = some (n, r) := h
      exact matchHashNum_suffix _ n r h3
  · exact matchHashNum_suffix s n r h

/-- `check_dependencies.py`'s matcher leaves a suffix of its input. -/
theorem tryDep2_suffix (s : List Char) (n : Nat) (r : List Char)
    (h : tryDep2 s = some (n, r)) : r <:+ s := by
  unfold tryDep2 at h
  split at h
  · rename_i r1 heq
    exact (matchHashNum_suffix r1 n r h).trans (matchLitCI_suffix _ s r1 heq)
  · split at h
    · rename_i r1 heq
      exact (colonTailA_suffix r1 n r h).trans (matchLitCI_suffix _ s r1 heq)
    · cases h

/-- A case-insensitive literal split along concatenation. -/
theorem matchLitCI_split (p q : List Char) :
    ∀ s, matchLitCI (p ++ q) s = (matchLitCI p s).bind (matchLitCI q) := by
  induction p with
  | nil => intro s; rfl
  | cons a p ih =>
    intro s
    cases s with
    | nil => rfl
    | cons c cs =>
      show (if c.toLower == a.toLower then matchLitCI (p ++ q) cs else none) =
        (if c.toLower == a.toLower then matchLitCI p cs else none).bind (matchLitCI q)
      by_cases hc : (c.toLower == a.toLower) = true
      · rw [if_pos hc, if_pos hc, ih cs]
      · rw [if_neg hc, if_neg hc]
        rfl

/-- Where no `依存タスク` marker matches, the two matchers agree. -/
theorem tryDep1_eq_tryDep2 (s : List Char) (h : tryTask s = none) :
    tryDep1 s = tryDep2 s := by
  unfold tryDep1 tryDep2
  cases h1 : matchLitCI "Depends on".data s with
  | some r => rfl
  | none =>
    cases h2 : matchLitCI "依存".data s with
    | none => rfl
    | some r =>
      have htask : (match matchLitCI "タスク".data r with
          | some r3 => matchHashNum r3
          | none => none) = none := by
        unfold tryTask at h
        rw [show "依存タスク".data = "依存".data ++ "タスク".data from by decide,
          matchLitCI_split, h2] at h
        exact h
      cases h3 : colonTailA r with
      | some v => simp [Option.orElse, h3]
      | none => simp [Option.orElse, h3, htask]

/-- The two scanners agree on any text in which no suffix carries a
`依存タスク` marker. -/
theorem scanFuel_agree (fuel : Nat) :
    ∀ s : List Char, (∀ t, t <:+ s → tryTask t = none) →
      scanFuel tryDep1 fuel s = scanFuel tryDep2 fuel s := by
  induction fuel with
  | zero => intro s _; cases s <;> rfl
  | succ f ih =>
    intro s h
    cases s with
    | nil => rfl
    | cons c cs =>
      have hh : tryDep1 (c :: cs) = tryDep2 (c :: cs) :=
        tryDep1_eq_tryDep2 _ (h _ (List.suffix_refl _))
      show (match tryDep1 (c :: cs) with
        | some (n, r) => n :: scanFuel tryDep1 f r
        | none => scanFuel tryDep1 f cs) =
        (match tryDep2 (c :: cs) with
        | some (n, r) => n :: scanFuel tryDep2 f r
        | none => scanFuel tryDep2 f cs)
      rw [hh]
      cases h2 : tryDep2 (c :: cs) with
      | none =>
        exact ih cs fun t ht => h t (ht.trans (List.suffix_cons c cs))
      | some nr =>
        obtain ⟨n, r⟩ := nr
        have hr : r <:+ c :: cs := tryDep2_suffix _ _ _ h2
        show n :: scanFuel tryDep1 f r = n :: scanFuel tryDep2 f r
        rw [ih r fun t ht => h t (ht.trans hr)]

/-- Claim C9: on every body none of whose positions carries a
`依存タスク #<n>` marker — in particular on bodies whose markers are all of
the common forms `Depends on #<n>` and `依存[:] #<n>` — the resolvers of
choose_next_issue.py and check_dependencies.py extract the same references
and return the same verdict for every lookup state; and they are not equal on
all inputs: on `"依存タスク #5"` with issue 5 open, `deps_resolved` is
`false` while `check_dependencies` is `true`. -/
theorem C9_resolvers_agree :
    (∀ (body : String) (lookup : Nat → Option IssueState),
      body.data.tails.all (fun t => (tryTask t).isNone) = true →
      depRefs1 body = depRefs2 body
      ∧ ChooseNext.deps_resolved lookup body = CheckDeps.check_dependencies lookup body)
    ∧ ChooseNext.deps_resolved (fun _ => some IssueState.opened) "依存タスク #5" = false
    ∧ CheckDeps.check_dependencies (fun _ => some IssueState.opened) "依存タスク #5" = true := by
  refine ⟨?_, by decide, by decide⟩
  intro body lookup h
  have ht : ∀ t, t <:+ body.data → tryTask t = none := by
    intro t hsuf
    have := List.all_eq_true.1 h t ((List.mem_tails t body.data).2 hsuf)
    simpa using this
  have hrefs : depRefs1 body = depRefs2 body := scanFuel_agree _ body.data ht
  refine ⟨hrefs, ?_⟩
  show (depRefs1 body).all _ = _
  rw [check_dependencies_eq_all, hrefs]

/-- Concrete instantiation of `C9_resolvers_agree`. -/
theorem C9_witness :
    depRefs1 "Depends on #3 依存: #4" = depRefs2 "Depends on #3 依存: #4"
    ∧ ChooseNext.deps_resolved (fun _ => none) "Depends on #3 依存: #4"
      = CheckDeps.check_dependencies (fun _ => none) "Depends on #3 依存: #4" :=
  C9_resolvers_agree.1 "Depends on #3 依存: #4" (fun _ => none) (by decide)

/-! ## The bold dependency line of create_issues.py is invisible (C10) -/

/-- Lower-casing is the identity on digits. -/
theorem toLower_of_digit (c : Char) (h : c.isDigit = true) : c.toLower = c := by
  simp [Char.isDigit] at h
  have hn : c.toNat ≤ 57 := h.2
  show (if c.toNat ≥ 65 ∧ c.toNat ≤ 90 then Char.ofNat (c.toNat + 32) else c) = c
  rw [if_neg (by omega)]

/-- A digit character cannot open any dependency marker. -/
theorem safeChar_of_digit (c : Char) (h : c.isDigit = true) : safeChar c = true := by
  have hl := toLower_of_digit c h
  have hd : ∀ x : Char, x.isDigit = false → (c == x) = false := by
    intro x hx
    by_contra hcx
    have : (c == x) = true := by
      cases hcc : c == x
      · exact absurd hcc hcx
      · rfl
    have : c = x := beq_iff_eq.1 this
    subst this
    rw [h] at hx
    cases hx
  simp [safeChar, hl]
  exact ⟨⟨⟨by simpa using hd 'd' (by decide), by simpa using hd '依' (by decide)⟩,
    by simpa using hd 'r' (by decide)⟩, by simpa using hd 'b' (by decide)⟩

/-- Unpacking of `safeChar`. -/
theorem safe_parts (c : Char) (h : safeChar c = true) :
    c.toLower ≠ 'd' ∧ c.toLower ≠ '依' ∧ c.toLower ≠ 'r' ∧ c.toLower ≠ 'b' := by
  have h0 : (c.toLower == 'd' || c.toLower == '依' || c.toLower == 'r' || c.toLower == 'b') = false := by
    simpa [safeChar] using h
  have h1 : ((¬c.toLower = 'd' ∧ ¬c.toLower = '依') ∧ ¬c.toLower = 'r') ∧ ¬c.toLower = 'b' := by
    simpa using h0
  exact ⟨h1.1.1.1, h1.1.1.2, h1.1.2, h1.2⟩

/-- `choose_next_issue.py`'s matcher fails at any safe head character. -/
theorem tryDep1_safe (c : Char) (s : List Char) (h : safeChar c = true) :
    tryDep1 (c :: s) = none := by
  obtain ⟨h1, h2, _, _⟩ := safe_parts c h
  have e1 : matchLitCI "Depends on".data (c :: s) = none := by
    show (if c.toLower == 'D'.toLower then matchLitCI "epends on".data s else none) = none
    rw [if_neg (by simp [show 'D'.toLower = 'd' from rfl, h1])]
  have e2 : matchLitCI "依存".data (c :: s) = none := by
    show (if c.toLower == '依'.toLower then matchLitCI "存".data s else none) = none
    rw [if_neg (by simp [show '依'.toLower = '依' from rfl, h2])]
  show (match matchLitCI "Depends on".data (c :: s) with
    | some r => matchHashNum r
    | none =>
      match matchLitCI "依存".data (c :: s) with
      | some r =>
        (colonTailA r).orElse fun _ =>
          match matchLitCI "タスク".data r with
          | some r3 => matchHashNum r3
          | none => none
      | none => none) = none
  rw [e1, e2]


/-- `check_dependencies.py`'s matcher fails at any safe head character. -/
theorem tryDep2_safe (c : Char) (s : List Char) (h : safeChar c = true) :
    tryDep2 (c :: s) = none := by
  obtain ⟨h1, h2, _, _⟩ := safe_parts c h
  have e1 : matchLitCI "Depends on".data (c :: s) = none := by
    show (if c.toLower == 'D'.toLower then matchLitCI "epends on".data s else none) = none
    rw [if_neg (by simp [show 'D'.toLower = 'd' from rfl, h1])]
  have e2 : matchLitCI "依存".data (c :: s) = none := by
    show (if c.toLower == '依'.toLower then matchLitCI "存".data s else none) = none
    rw [if_neg (by simp [show '依'.toLower = '依' from rfl, h2])]
  show (match matchLitCI "Depends on".data (c :: s) with
    | some r => matchHashNum r
    | none =>
      match matchLitCI "依存".data (c :: s) with
      | some r => colonTailA r
      | none => none) = none
  rw [e1, e2]

/-- `get_prioritized_issues.py`'s matcher fails at any safe head character. -/
theorem tryDep3_safe (c : Char) (s : List Char) (h : safeChar c = true) :
    tryDep3 (c :: s) = none := by
  obtain ⟨h1, h2, h3, h4⟩ := safe_parts c h
  have e1 : matchLitCI "Depends on".data (c :: s) = none := by
    show (if c.toLower == 'D'.toLower then matchLitCI "epends on".data s else none) = none
    rw [if_neg (by simp [show 'D'.toLower = 'd' from rfl, h1])]
  have e2 : matchLitCI "依存".data (c :: s) = none := by
    show (if c.toLower == '依'.toLower then matchLitCI "存".data s else none) = none
    rw [if_neg (by simp [show '依'.toLower = '依' from rfl, h2])]
  have e3 : matchLitCI "Requires".data (c :: s) = none := by
    show (if c.toLower == 'R'.toLower then matchLitCI "equires".data s else none) = none
    rw [if_neg (by simp [show 'R'.toLower = 'r' from rfl, h3])]
  have e4 : matchLitCI "Blocks by".data (c :: s) = none := by
    show (if c.toLower == 'B'.toLower then matchLitCI "locks by".data s else none) = none
    rw [if_neg (by simp [show 'B'.toLower = 'b' from rfl, h4])]
  show (match matchLitCI "Depends on".data (c :: s) with
    | some r => colonTailW r
    | none =>
      match matchLitCI "依存".data (c :: s) with
      | some r => colonTailW r
      | none =>
        match matchLitCI "Requires".data (c :: s) with
        | some r => colonTailW r
        | none =>
          match matchLitCI "Blocks by".data (c :: s) with
          | some r => colonTailW r
          | none => none) = none
  rw [e1, e2, e3, e4]

/-- Every character of the joined `#<digits>` list (and the trailing newline)
is safe. -/
theorem depNumsText_safe (dss : List (List Char))
    (h : ∀ ds ∈ dss, ∀ c ∈ ds, c.isDigit = true) :
    ∀ c ∈ depNumsText dss ++ ['\n'], safeChar c = true := by
  induction dss with
  | nil =>
    intro c hc
    have h2 : c = '\n' := by
      have he : depNumsText [] ++ ['\n'] = ['\n'] := rfl
      rw [he] at hc
      simpa using hc
    subst h2
    decide
  | cons ds rest ih =>
    cases rest with
    | nil =>
      intro c hc
      have hds := h ds (List.mem_cons_self ds [])
      simp [depNumsText, List.mem_append, List.mem_cons] at hc
      rcases hc with rfl | hc | rfl
      · decide
      · exact safeChar_of_digit c (hds c hc)
      · decide
    | cons ds2 rest2 =>
      intro c hc
      have hds := h ds (List.mem_cons_self ds (ds2 :: rest2))
      have hrest : ∀ e ∈ ds2 :: rest2, ∀ d ∈ e, d.isDigit = true :=
        fun e he d hd => h e (List.mem_cons_of_mem ds he) d hd
      simp only [depNumsText, List.cons_append, List.append_assoc, List.mem_cons,
        List.mem_append] at hc
      rcases hc with rfl | hc | rfl | rfl | hc | rfl | hc
      · decide
      · exact safeChar_of_digit c (hds c hc)
      · decide
      · decide
      · exact ih hrest c (List.mem_append.2 (Or.inl hc))
      · decide
      · cases hc

/-- A suffix of `l\u2081 ++ l\u2082` is a suffix of `l\u2082` or a nonempty suffix of `l\u2081`
followed by all of `l\u2082`. -/
theorem suffix_append_cases {α : Type} {l₁ l₂ t : List α} (h : t <:+ l₁ ++ l₂) :
    t <:+ l₂ ∨ ∃ t₁, t₁ <:+ l₁ ∧ t₁ ≠ [] ∧ t = t₁ ++ l₂ := by
  obtain ⟨p, hp⟩ := h
  rcases List.append_eq_append_iff.1 hp with ⟨a, ha1, ha2⟩ | ⟨c', _, hc2⟩
  · by_cases hane : a = []
    · subst hane
      simp only [List.nil_append] at ha2
      exact Or.inl (ha2 ▸ List.suffix_refl l₂)
    · exact Or.inr ⟨a, ⟨p, ha1.symm⟩, hane, ha2⟩
  · exact Or.inl ⟨c', hc2.symm⟩

/-- A scan over text none of whose nonempty suffixes matches finds nothing. -/
theorem scanFuel_nil (tm : List Char → Option (Nat × List Char)) :
    ∀ (fuel : Nat) (s : List Char),
      (∀ t, t <:+ s → t ≠ [] → tm t = none) → scanFuel tm fuel s = [] := by
  intro fuel
  induction fuel with
  | zero => intro s _; cases s <;> rfl
  | succ f ih =>
    intro s h
    cases s with
    | nil => rfl
    | cons c cs =>
      have h0 : tm (c :: cs) = none := h _ (List.suffix_refl _) (by simp)
      show (match tm (c :: cs) with
        | some (n, r) => n :: scanFuel tm f r
        | none => scanFuel tm f cs) = []
      rw [h0]
      exact ih cs fun t ht hne => h t (ht.trans (List.suffix_cons c cs)) hne

/-- No nonempty suffix of the appended dependency line matches any matcher
that fails on safe heads and on the `\u4f9d\u5b58\u30bf\u30b9\u30af**\u2026` column, so the scan of the
whole line is empty. -/
theorem tm_depLine_nil (tm : List Char → Option (Nat × List Char))
    (Hsafe : ∀ c s', safeChar c = true → tm (c :: s') = none)
    (Hjp : ∀ tail, tm ('依' :: '存' :: 'タ' :: 'ス' :: 'ク' :: '*' :: tail) = none)
    (dss : List (List Char)) (hd : ∀ ds ∈ dss, ∀ c ∈ ds, c.isDigit = true) :
    findAllNums tm (depLine dss) = [] := by
  apply scanFuel_nil
  intro t ht hne
  unfold depLine at ht
  rw [List.append_assoc] at ht
  rcases suffix_append_cases ht with hB | ⟨t₁, ht₁, hne₁, rfl⟩
  · cases t with
    | nil => exact absurd rfl hne
    | cons c rest =>
      exact Hsafe c rest (depNumsText_safe dss hd c (hB.subset (List.mem_cons_self c rest)))
  · have hm : t₁ ∈ ("\n\n**依存タスク**: ".data).tails := (List.mem_tails _ _).2 ht₁
    rw [show ("\n\n**依存タスク**: ".data).tails =
      [['\n', '\n', '*', '*', '依', '存', 'タ', 'ス', 'ク', '*', '*', ':', ' '],
       ['\n', '*', '*', '依', '存', 'タ', 'ス', 'ク', '*', '*', ':', ' '],
       ['*', '*', '依', '存', 'タ', 'ス', 'ク', '*', '*', ':', ' '],
       ['*', '依', '存', 'タ', 'ス', 'ク', '*', '*', ':', ' '],
       ['依', '存', 'タ', 'ス', 'ク', '*', '*', ':', ' '],
       ['存', 'タ', 'ス', 'ク', '*', '*', ':', ' '],
       ['タ', 'ス', 'ク', '*', '*', ':', ' '],
       ['ス', 'ク', '*', '*', ':', ' '],
       ['ク', '*', '*', ':', ' '],
       ['*', '*', ':', ' '],
       ['*', ':', ' '],
       [':', ' '],
       [' '],
       []] from by decide] at hm
    simp only [List.mem_cons, List.not_mem_nil, or_false] at hm
    rcases hm with rfl | rfl | rfl | rfl | rfl | rfl | rfl | rfl | rfl | rfl | rfl | rfl | rfl | rfl
    · exact Hsafe _ _ (by decide)
    · exact Hsafe _ _ (by decide)
    · exact Hsafe _ _ (by decide)
    · exact Hsafe _ _ (by decide)
    · exact Hjp _
    · exact Hsafe _ _ (by decide)
    · exact Hsafe _ _ (by decide)
    · exact Hsafe _ _ (by decide)
    · exact Hsafe _ _ (by decide)
    · exact Hsafe _ _ (by decide)
    · exact Hsafe _ _ (by decide)
    · exact Hsafe _ _ (by decide)
    · exact Hsafe _ _ (by decide)
    · exact absurd rfl hne₁

/-- Claim C10: for every item whose dependency declaration is the line
`**\u4f9d\u5b58\u30bf\u30b9\u30af**: #<n>, \u2026` that `create_issues.py` itself appends, every
resolver's extraction pattern finds no match (the bold asterisks break the
regexes), so the item is treated as having zero dependencies and reported
unblocked regardless of the lifecycle state of the referenced items. -/
theorem C10_bold_marker_breaks (dss : List (List Char))
    (hd : ∀ ds ∈ dss, ∀ c ∈ ds, c.isDigit = true) :
    depRefs1 ⟨depLine dss⟩ = []
    ∧ depRefs2 ⟨depLine dss⟩ = []
    ∧ depRefs3 ⟨depLine dss⟩ = []
    ∧ (∀ lookup : Nat → Option IssueState,
        ChooseNext.deps_resolved lookup ⟨depLine dss⟩ = true)
    ∧ (∀ lookup : Nat → Option IssueState,
        CheckDeps.check_dependencies lookup ⟨depLine dss⟩ = true)
    ∧ (∀ statusOf : Nat → Option String,
        GetPrior.check_dependencies statusOf (some ⟨depLine dss⟩) = true) := by
  have h1 : depRefs1 ⟨depLine dss⟩ = [] :=
    tm_depLine_nil tryDep1 tryDep1_safe (fun _ => rfl) dss hd
  have h2 : depRefs2 ⟨depLine dss⟩ = [] :=
    tm_depLine_nil tryDep2 tryDep2_safe (fun _ => rfl) dss hd
  have h3 : depRefs3 ⟨depLine dss⟩ = [] :=
    tm_depLine_nil tryDep3 tryDep3_safe (fun _ => rfl) dss hd
  refine ⟨h1, h2, h3, ?_, ?_, ?_⟩
  · intro lookup
    show (depRefs1 ⟨depLine dss⟩).all _ = true
    rw [h1]
    rfl
  · intro lookup
    rw [check_dependencies_eq_all, h2]
    rfl
  · intro statusOf
    show (if (⟨depLine dss⟩ : String).isEmpty then true
      else (depRefs3 ⟨depLine dss⟩).all fun n =>
        match statusOf n with
        | some st => st == "completed" || st == "closed"
        | none => true) = true
    by_cases he : (⟨depLine dss⟩ : String).isEmpty = true
    · rw [if_pos he]
    · rw [if_neg he, h3]
      rfl

/-- Concrete instantiation of `C10_bold_marker_breaks`. -/
theorem C10_witness :
    depRefs1 ⟨depLine [['3'], ['1', '2']]⟩ = []
    ∧ ChooseNext.deps_resolved (fun _ => some IssueState.opened) ⟨depLine [['3'], ['1', '2']]⟩ = true :=
  ⟨(C10_bold_marker_breaks [['3'], ['1', '2']] (by decide)).1,
   (C10_bold_marker_breaks [['3'], ['1', '2']] (by decide)).2.2.2.1 (fun _ => some IssueState.opened)⟩

/-! ## The selection loop of choose_next_issue.py (C2, C8) -/

theorem keyLe_refl (p : Nat × Nat) : keyLe p p := by
  unfold keyLe; omega

/-- In a sorted list, the first element satisfying `p` is `r`-below every
element satisfying `p`. -/
theorem find?_min {α : Type} {r : α → α → Prop} {p : α → Bool} :
    ∀ {l : List α}, List.Sorted r l → ∀ {x}, l.find? p = some x → (∀ a, r a a) →
      ∀ y ∈ l, p y = true → r x y := by
  intro l
  induction l with
  | nil => intro _ x hf; cases hf
  | cons a t ih =>
    intro hs x hf hrefl y hy hpy
    rw [List.find?_cons] at hf
    by_cases hpa : p a = true
    · rw [hpa] at hf
      have hxa : x = a := by
        cases hf
        rfl
      subst hxa
      rcases List.mem_cons.1 hy with rfl | hyt
      · exact hrefl y
      · exact (List.sorted_cons.1 hs).1 y hyt
    · rw [Bool.eq_false_iff.2 hpa] at hf
      rcases List.mem_cons.1 hy with rfl | hyt
      · exact absurd hpy hpa
      · exact ih (List.sorted_cons.1 hs).2 hf hrefl y hyt hpy

/-- Two sorted permutations of each other with pairwise-distinct sort keys are
equal — the scripts' `(rank, id)` sort is canonical once ids are distinct. -/
theorem sorted_perm_eq {α : Type} {f : α → Nat × Nat} :
    ∀ {l₁ l₂ : List α}, l₁.Perm l₂ →
      List.Sorted (fun a b => keyLe (f a) (f b)) l₁ →
      List.Sorted (fun a b => keyLe (f a) (f b)) l₂ →
      (l₁.map f).Nodup → l₁ = l₂ := by
  intro l₁
  induction l₁ with
  | nil =>
    intro l₂ hp _ _ _
    exact (hp.symm.eq_nil).symm
  | cons a t ih =>
    intro l₂ hp hs₁ hs₂ hnd
    cases l₂ with
    | nil => exact absurd hp.eq_nil (by simp)
    | cons b t₂ =>
      have hnd' : f a ∉ t.map f ∧ (t.map f).Nodup := by
        have := hnd
        rw [List.map_cons, List.nodup_cons] at this
        exact this
      have hab : a = b := by
        by_contra hne
        have ha2 : a ∈ t₂ := by
          rcases List.mem_cons.1 (hp.subset (List.mem_cons_self a t)) with h | h
          · exact absurd h hne
          · exact h
        have hb1 : b ∈ t := by
          rcases List.mem_cons.1 (hp.symm.subset (List.mem_cons_self b t₂)) with h | h
          · exact absurd h.symm hne
          · exact h
        have h1 : keyLe (f a) (f b) := (List.sorted_cons.1 hs₁).1 b hb1
        have h2 : keyLe (f b) (f a) := (List.sorted_cons.1 hs₂).1 a ha2
        have hfeq : f a = f b := keyLe_antisymm h1 h2
        have hmem : f b ∈ t.map f := List.mem_map_of_mem f hb1
        rw [← hfeq] at hmem
        exact hnd'.1 hmem
      subst hab
      rw [ih hp.cons_inv (List.sorted_cons.1 hs₁).2 (List.sorted_cons.1 hs₂).2 hnd'.2]

/-- `find?` only consults the predicate on the list's members. -/
theorem find?_congr {α : Type} {p q : α → Bool} :
    ∀ l : List α, (∀ x ∈ l, p x = q x) → l.find? p = l.find? q := by
  intro l
  induction l with
  | nil => intro _; rfl
  | cons a t ih =>
    intro h
    rw [List.find?_cons, List.find?_cons, h a (List.mem_cons_self a t),
      ih fun x hx => h x (List.mem_cons_of_mem a hx)]

/-- The returned value of `get_next_issue`'s loop is the first candidate
accepted by the dependency subprocess, packaged as the output record. -/
theorem scanIssues_fst (runDeps : Nat → Bool) :
    ∀ l : List Issue, (GetNext.scanIssues runDeps l).1 =
      (l.find? fun i => runDeps i.number).map
        (fun i => (⟨i.number, i.title, GetNext.extract_priority i.labels⟩ : GetNext.NextIssue)) := by
  intro l
  induction l with
  | nil => rfl
  | cons i rest ih =>
    by_cases hr : runDeps i.number = true
    · simp [GetNext.scanIssues, List.find?_cons, hr]
    · have hr2 : runDeps i.number = false := Bool.eq_false_iff.2 hr
      simp [GetNext.scanIssues, List.find?_cons, hr2, ih]

/-- Claim C2: both cited selection loops return exactly the first item, in
ascending lexicographic `(priority rank, id)` order over their ready
candidates, whose dependencies are all resolved.  For
`choose_next_issue.main` (candidates: open `ai:task` issues, resolver:
`deps_resolved`): a returned number belongs to an unblocked candidate whose
sort key is minimal among all unblocked candidates (ties in rank go to the
smaller id), and the outcome is `none` exactly when no candidate is
unblocked.  For `get_next_issue.get_next_issue` without override (candidates:
open `ai:ready` issues, resolver: the `check_dependencies.py` subprocess
verdict `runDeps`): the returned record likewise comes from the accepted
candidate of minimal `(rank, id)` key among accepted candidates, and the
result is `None` exactly when no candidate is accepted.  The short-circuit of
both loops is the first-match semantics of the selection. -/
theorem C2_first_unblocked :
    (∀ (lookup : Nat → Option IssueState) (pool : List Issue),
      (∀ m, ChooseNext.chooseNext lookup pool = some m →
        ∃ i, i ∈ ChooseNext.candidates pool ∧ i.number = m
          ∧ ChooseNext.deps_resolved lookup i.body = true
          ∧ ∀ j ∈ ChooseNext.candidates pool, ChooseNext.deps_resolved lookup j.body = true →
              keyLe (ChooseNext.sortKey i) (ChooseNext.sortKey j))
      ∧ (ChooseNext.chooseNext lookup pool = none ↔
        ∀ j ∈ ChooseNext.candidates pool, ChooseNext.deps_resolved lookup j.body = false))
    ∧ (∀ (lookupIssue : Nat → Option Issue) (pool : List Issue) (runDeps : Nat → Bool)
        (res : Option GetNext.NextIssue) (log : List String),
      GetNext.get_next_issue none lookupIssue pool runDeps = GetNext.Outcome.ok res log →
      (∀ r, res = some r →
        ∃ i, i ∈ GetNext.gnReady pool ∧ runDeps i.number = true
          ∧ r = ⟨i.number, i.title, GetNext.extract_priority i.labels⟩
          ∧ ∀ j ∈ GetNext.gnReady pool, runDeps j.number = true →
              keyLe (GetNext.gnKey i) (GetNext.gnKey j))
      ∧ (res = none ↔ ∀ j ∈ GetNext.gnReady pool, runDeps j.number = false)) := by
  constructor
  · intro lookup pool
    haveI : IsTotal Issue (fun a b => keyLe (ChooseNext.sortKey a) (ChooseNext.sortKey b)) :=
      ⟨fun a b => keyLe_total _ _⟩
    haveI : IsTrans Issue (fun a b => keyLe (ChooseNext.sortKey a) (ChooseNext.sortKey b)) :=
      ⟨fun _ _ _ h1 h2 => keyLe_trans h1 h2⟩
    have hperm : (ChooseNext.sortedCandidates pool).Perm (ChooseNext.candidates pool) :=
      List.perm_insertionSort _ _
    have hsorted : List.Sorted (fun a b => keyLe (ChooseNext.sortKey a) (ChooseNext.sortKey b))
        (ChooseNext.sortedCandidates pool) :=
      List.sorted_insertionSort _ _
    constructor
    · intro m hm
      obtain ⟨i, hfind, hnum⟩ := Option.map_eq_some'.1 hm
      have hpi : ChooseNext.deps_resolved lookup i.body = true :=
        @List.find?_some Issue (fun i => ChooseNext.deps_resolved lookup i.body) i
          (ChooseNext.sortedCandidates pool) hfind
      refine ⟨i, hperm.subset (List.mem_of_find?_eq_some hfind), hnum, hpi, ?_⟩
      intro j hj hdj
      exact find?_min hsorted hfind (fun a => keyLe_refl _) j (hperm.mem_iff.2 hj) hdj
    · rw [show ChooseNext.chooseNext lookup pool =
        ((ChooseNext.sortedCandidates pool).find? fun i =>
          ChooseNext.deps_resolved lookup i.body).map (·.number) from rfl,
        Option.map_eq_none', List.find?_eq_none]
      constructor
      · intro h j hj
        exact Bool.eq_false_iff.2 (h j (hperm.mem_iff.2 hj))
      · intro h j hj
        rw [h j (hperm.mem_iff.1 hj)]
        simp
  · intro lookupIssue pool runDeps res log h
    haveI : IsTotal Issue (fun a b => keyLe (GetNext.gnKey a) (GetNext.gnKey b)) :=
      ⟨fun a b => keyLe_total _ _⟩
    haveI : IsTrans Issue (fun a b => keyLe (GetNext.gnKey a) (GetNext.gnKey b)) :=
      ⟨fun _ _ _ h1 h2 => keyLe_trans h1 h2⟩
    have hperm : (GetNext.gnSorted pool).Perm (GetNext.gnReady pool) :=
      List.perm_insertionSort _ _
    have hsorted : List.Sorted (fun a b => keyLe (GetNext.gnKey a) (GetNext.gnKey b))
        (GetNext.gnSorted pool) :=
      List.sorted_insertionSort _ _
    have h0 : GetNext.get_next_issue none lookupIssue pool runDeps =
        GetNext.Outcome.ok ((GetNext.scanIssues runDeps (GetNext.gnSorted pool)).1)
          (("📋 ai:ready ラベルのIssue: " ++ toString (GetNext.gnSorted pool).length ++ "件")
            :: (GetNext.scanIssues runDeps (GetNext.gnSorted pool)).2) := rfl
    rw [h0, GetNext.Outcome.ok.injEq] at h
    have hres : res = ((GetNext.gnSorted pool).find? fun i => runDeps i.number).map
        (fun i => (⟨i.number, i.title, GetNext.extract_priority i.labels⟩ : GetNext.NextIssue)) := by
      rw [← h.1, scanIssues_fst]
    constructor
    · intro r hr
      rw [hres] at hr
      obtain ⟨i, hfind, hfr⟩ := Option.map_eq_some'.1 hr
      have hri : runDeps i.number = true :=
        @List.find?_some Issue (fun i => runDeps i.number) i (GetNext.gnSorted pool) hfind
      refine ⟨i, hperm.subset (List.mem_of_find?_eq_some hfind), hri, hfr.symm, ?_⟩
      intro j hj hdj
      exact find?_min hsorted hfind (fun a => keyLe_refl _) j (hperm.mem_iff.2 hj) hdj
    · rw [hres, Option.map_eq_none', List.find?_eq_none]
      constructor
      · intro hh j hj
        exact Bool.eq_false_iff.2 (hh j (hperm.mem_iff.2 hj))
      · intro hh j hj
        rw [hh j (hperm.mem_iff.1 hj)]
        simp

/-- Concrete instantiation of `C2_first_unblocked`, one conjunct per loop. -/
theorem C2_witness :
    (∃ i, i ∈ ChooseNext.candidates
        [⟨2, "b", ["ai:task"], "", IssueState.opened, false⟩,
         ⟨1, "a", ["ai:task"], "", IssueState.opened, false⟩]
      ∧ i.number = 1
      ∧ ChooseNext.deps_resolved (fun _ => none) i.body = true
      ∧ ∀ j ∈ ChooseNext.candidates
          [⟨2, "b", ["ai:task"], "", IssueState.opened, false⟩,
           ⟨1, "a", ["ai:task"], "", IssueState.opened, false⟩],
          ChooseNext.deps_resolved (fun _ => none) j.body = true →
          keyLe (ChooseNext.sortKey i) (ChooseNext.sortKey j))
    ∧ (∃ i, i ∈ GetNext.gnReady [⟨1, "a", ["ai:ready"], "", IssueState.opened, false⟩]
      ∧ (fun _ : Nat => true) i.number = true
      ∧ (⟨1, "a", "P9"⟩ : GetNext.NextIssue)
          = ⟨i.number, i.title, GetNext.extract_priority i.labels⟩
      ∧ ∀ j ∈ GetNext.gnReady [⟨1, "a", ["ai:ready"], "", IssueState.opened, false⟩],
          (fun _ : Nat => true) j.number = true →
          keyLe (GetNext.gnKey i) (GetNext.gnKey j)) :=
  ⟨((C2_first_unblocked.1 (fun _ => none)
      [⟨2, "b", ["ai:task"], "", IssueState.opened, false⟩,
       ⟨1, "a", ["ai:task"], "", IssueState.opened, false⟩]).1 1 (by decide)),
   ((C2_first_unblocked.2 (fun _ => none)
      [⟨1, "a", ["ai:ready"], "", IssueState.opened, false⟩] (fun _ => true)
      (some ⟨1, "a", "P9"⟩)
      ["📋 ai:ready ラベルのIssue: 1件", "\n🔍 チェック中: Issue #1 [P9] a",
       "✅ Issue #1 は実行可能です"] (by decide)).1 ⟨1, "a", "P9"⟩ rfl)⟩

/-- Claim C8: `choose_next_issue.main`'s selection is deterministic — it is a
pure function of the snapshot; for pools with distinct issue numbers the
result is invariant under any permutation of the pool (no reliance on
iteration order beyond the `(rank, id)` sort key); and the result depends on
the lookup state only through the per-candidate dependency verdicts. -/
theorem C8_deterministic :
    (∀ (lookup : Nat → Option IssueState) (pool : List Issue),
      ChooseNext.chooseNext lookup pool = ChooseNext.chooseNext lookup pool)
    ∧ (∀ (lookup : Nat → Option IssueState) (pool₁ pool₂ : List Issue),
      pool₁.Perm pool₂ → (pool₁.map Issue.number).Nodup →
      ChooseNext.chooseNext lookup pool₁ = ChooseNext.chooseNext lookup pool₂)
    ∧ (∀ (lookup₁ lookup₂ : Nat → Option IssueState) (pool : List Issue),
      (∀ i ∈ pool, ChooseNext.deps_resolved lookup₁ i.body
        = ChooseNext.deps_resolved lookup₂ i.body) →
      ChooseNext.chooseNext lookup₁ pool = ChooseNext.chooseNext lookup₂ pool) := by
  haveI : IsTotal Issue (fun a b => keyLe (ChooseNext.sortKey a) (ChooseNext.sortKey b)) :=
    ⟨fun a b => keyLe_total _ _⟩
  haveI : IsTrans Issue (fun a b => keyLe (ChooseNext.sortKey a) (ChooseNext.sortKey b)) :=
    ⟨fun _ _ _ h1 h2 => keyLe_trans h1 h2⟩
  refine ⟨fun _ _ => rfl, ?_, ?_⟩
  · intro lookup pool₁ pool₂ hperm hnd
    have hc : (ChooseNext.candidates pool₁).Perm (ChooseNext.candidates pool₂) :=
      hperm.filter _
    have hs₁ := List.sorted_insertionSort
      (fun a b => keyLe (ChooseNext.sortKey a) (ChooseNext.sortKey b))
      (ChooseNext.candidates pool₁)
    have hs₂ := List.sorted_insertionSort
      (fun a b => keyLe (ChooseNext.sortKey a) (ChooseNext.sortKey b))
      (ChooseNext.candidates pool₂)
    have hp12 : (ChooseNext.sortedCandidates pool₁).Perm (ChooseNext.sortedCandidates pool₂) :=
      ((List.perm_insertionSort _ _).trans hc).trans (List.perm_insertionSort _ _).symm
    have hndc : ((ChooseNext.candidates pool₁).map Issue.number).Nodup :=
      ((List.filter_sublist pool₁).map Issue.number).nodup hnd
    have hnds : ((ChooseNext.sortedCandidates pool₁).map Issue.number).Nodup :=
      (((List.perm_insertionSort _ _).map Issue.number).nodup_iff).2 hndc
    have hndk : ((ChooseNext.sortedCandidates pool₁).map ChooseNext.sortKey).Nodup := by
      apply List.Nodup.of_map Prod.snd
      rw [List.map_map]
      have : (Prod.snd ∘ ChooseNext.sortKey) = Issue.number := rfl
      rw [this]
      exact hnds
    have heq : ChooseNext.sortedCandidates pool₁ = ChooseNext.sortedCandidates pool₂ :=
      sorted_perm_eq hp12 hs₁ hs₂ hndk
    show ((ChooseNext.sortedCandidates pool₁).find? _).map (·.number)
      = ((ChooseNext.sortedCandidates pool₂).find? _).map (·.number)
    rw [heq]
  · intro lookup₁ lookup₂ pool h
    show ((ChooseNext.sortedCandidates pool).find? fun i =>
        ChooseNext.deps_resolved lookup₁ i.body).map (·.number)
      = ((ChooseNext.sortedCandidates pool).find? fun i =>
        ChooseNext.deps_resolved lookup₂ i.body).map (·.number)
    rw [find?_congr (ChooseNext.sortedCandidates pool) fun i hi =>
      h i (List.mem_of_mem_filter ((List.perm_insertionSort _ _).subset hi))]

/-- Concrete instantiation of `C8_deterministic`. -/
theorem C8_witness :
    ChooseNext.chooseNext (fun _ => none)
        [⟨1, "a", ["ai:task"], "", IssueState.opened, false⟩,
         ⟨2, "b", ["ai:task"], "", IssueState.opened, false⟩]
      = ChooseNext.chooseNext (fun _ => none)
        [⟨2, "b", ["ai:task"], "", IssueState.opened, false⟩,
         ⟨1, "a", ["ai:task"], "", IssueState.opened, false⟩] :=
  C8_deterministic.2.1 (fun _ => none) _ _
    (List.Perm.swap _ _ _) (by decide)

/-! ## The forced-override path of get_next_issue.py (C4) -/

/-- First character of a string — stable under appends on the right. -/
def headC (s : String) : Option Char :=
  s.data.head?

theorem headC_append (a b : String) : headC (a ++ b) = (headC a).or (headC b) := by
  unfold headC
  rw [String.data_append, List.head?_append]

theorem ne_of_headC {s t : String} (h : headC s ≠ headC t) : s ≠ t :=
  fun he => h (he ▸ rfl)

theorem headC_append_lit (a b : String) (c : Char) (h : headC a = some c) :
    headC (a ++ b) = some c := by
  rw [headC_append, h, Option.or_some]

theorem closedMsg_headC (n : Nat) : headC (GetNext.closedMsg n) = some '⚠' := by
  unfold GetNext.closedMsg
  exact headC_append_lit _ _ _ (headC_append_lit _ _ _ rfl)

/-- If the loop of `get_next_issue` returns `None`, its transcript ends in the
no-runnable message and never contains the forced-override closed warning. -/
theorem scanIssues_none (runDeps : Nat → Bool) :
    ∀ l : List Issue, (GetNext.scanIssues runDeps l).1 = none →
      GetNext.noRunnableMsg ∈ (GetNext.scanIssues runDeps l).2
      ∧ ∀ n, GetNext.closedMsg n ∉ (GetNext.scanIssues runDeps l).2 := by
  intro l
  induction l with
  | nil =>
    intro _
    have hs : GetNext.scanIssues runDeps ([] : List Issue) =
        (none, [GetNext.noRunnableMsg]) := rfl
    rw [hs]
    refine ⟨List.mem_singleton.2 rfl, ?_⟩
    intro n hmem
    rw [List.mem_singleton] at hmem
    exact absurd hmem (ne_of_headC (by rw [closedMsg_headC]; decide))
  | cons i rest ih =>
    intro hnone
    by_cases hr : runDeps i.number = true
    · simp [GetNext.scanIssues, hr] at hnone
    · have hr' : runDeps i.number = false := Bool.eq_false_iff.2 hr
      have hstep : GetNext.scanIssues runDeps (i :: rest) =
          ((GetNext.scanIssues runDeps rest).1,
            ("\n🔍 チェック中: Issue #" ++ toString i.number ++ " ["
                ++ GetNext.extract_priority i.labels ++ "] " ++ i.title)
              :: ("⏸️  Issue #" ++ toString i.number ++ " は依存関係待ちです")
              :: (GetNext.scanIssues runDeps rest).2) := by
        simp [GetNext.scanIssues, hr']
      rw [hstep] at hnone ⊢
      obtain ⟨hmem, hnot⟩ := ih hnone
      refine ⟨List.mem_cons_of_mem _ (List.mem_cons_of_mem _ hmem), ?_⟩
      intro n hx
      rcases List.mem_cons.1 hx with heq | hx2
      · refine absurd heq (ne_of_headC ?_)
        have hmsg : headC ("\n🔍 チェック中: Issue #" ++ toString i.number ++ " ["
            ++ GetNext.extract_priority i.labels ++ "] " ++ i.title) = some '\n' := by
          apply headC_append_lit
          apply headC_append_lit
          apply headC_append_lit
          apply headC_append_lit
          rfl
        rw [closedMsg_headC, hmsg]
        simp
      · rcases List.mem_cons.1 hx2 with heq | hx3
        · refine absurd heq (ne_of_headC ?_)
          have hmsg : headC ("⏸️  Issue #" ++ toString i.number ++ " は依存関係待ちです")
              = some '⏸' := by
            apply headC_append_lit
            apply headC_append_lit
            rfl
          rw [closedMsg_headC, hmsg]
          simp
        · exact hnot n hx3

/-- Claim C4 counterexample: in `get_prioritized_issues.main`, a forced id
whose issue is closed is absent from the collected open-issue list, so the
override loop matches nothing: with another ready item present the result is
that ordinary item (`some 1`) — not a `"none"` outcome at all — and with no
runnable item the closed-forced outcome is literally identical to the
ordinary no-force outcome, so no distinct reason code exists there. -/
theorem C4_counterexample :
    GetPrior.gpNextForce (some 99)
      [⟨1, "x", [], "", IssueState.opened, false⟩,
       ⟨99, "y", [], "", IssueState.closed, false⟩] = some 1
    ∧ GetPrior.gpNextForce (some 99) [⟨99, "y", [], "", IssueState.closed, false⟩]
      = GetPrior.gpNextForce none [⟨99, "y", [], "", IssueState.closed, false⟩] := by
  decide

/-- The override scan of `get_prioritized_issues.main` finds nothing when the
forced number occurs in no record. -/
theorem gpForceFront_none (fn : Nat) :
    ∀ l : List GetPrior.IssueData, (∀ d ∈ l, (d.number == fn) = false) →
      GetPrior.gpForceFront fn l = none := by
  intro l
  induction l with
  | nil => intro _; rfl
  | cons d rest ih =>
    intro h
    have h1 := h d (List.mem_cons_self d rest)
    have h2 := ih fun x hx => h x (List.mem_cons_of_mem d hx)
    simp [GetPrior.gpForceFront, h1, h2]

/-- Claim C4 (amended): in `get_next_issue.py` the claim holds — a forced item
number bypasses classification, ranking and dependency resolution (whatever
the pool and whatever the dependency checker answers, an open forced item is
returned as is), a closed forced item yields a `None` result whose only
output is the dedicated closed-override warning, that warning differs from
the no-runnable message, and the ordinary `None` outcome's transcript
contains the no-runnable message and never the warning, so the two "none"
outcomes are distinguishable there.  In `get_prioritized_issues.main`,
however, a closed forced item's number occurs in no collected record (only
open non-PR issues are collected), and whenever the forced number occurs in
no record the override loop matches nothing and the outcome is identical to
the ordinary no-force outcome — no distinct reason code distinguishes the
closed-override case there. -/
theorem C4_forced_override :
    (∀ (n : Nat) (lookupIssue : Nat → Option Issue) (pool : List Issue)
        (runDeps : Nat → Bool) (issue : Issue),
      lookupIssue n = some issue → issue.state = IssueState.opened →
      GetNext.get_next_issue (some n) lookupIssue pool runDeps =
        GetNext.Outcome.ok
          (some ⟨n, issue.title, GetNext.extract_priority issue.labels⟩)
          [GetNext.forcedMsg n])
    ∧ (∀ (n : Nat) (lookupIssue : Nat → Option Issue) (pool : List Issue)
        (runDeps : Nat → Bool) (issue : Issue),
      lookupIssue n = some issue → issue.state = IssueState.closed →
      GetNext.get_next_issue (some n) lookupIssue pool runDeps =
        GetNext.Outcome.ok none [GetNext.closedMsg n])
    ∧ (∀ n, GetNext.closedMsg n ≠ GetNext.noRunnableMsg)
    ∧ (∀ (lookupIssue : Nat → Option Issue) (pool : List Issue) (runDeps : Nat → Bool)
        (log : List String),
      GetNext.get_next_issue none lookupIssue pool runDeps = GetNext.Outcome.ok none log →
      GetNext.noRunnableMsg ∈ log ∧ ∀ n, GetNext.closedMsg n ∉ log)
    ∧ (∀ (pool : List Issue) (fn : Nat),
      (∀ i ∈ pool, i.number = fn → i.state = IssueState.closed) →
      ∀ d ∈ GetPrior.gpSorted pool, (d.number == fn) = false)
    ∧ (∀ (pool : List Issue) (fn : Nat),
      (∀ d ∈ GetPrior.gpSorted pool, (d.number == fn) = false) →
      GetPrior.gpNextForce (some fn) pool = GetPrior.gpNext pool) := by
  refine ⟨?_, ?_, ?_, ?_, ?_, ?_⟩
  · intro n lookupIssue pool runDeps issue h1 h2
    simp [GetNext.get_next_issue, h1, h2]
  · intro n lookupIssue pool runDeps issue h1 h2
    simp [GetNext.get_next_issue, h1, h2]
  · intro n
    exact ne_of_headC (by rw [closedMsg_headC]; decide)
  · intro lookupIssue pool runDeps log h
    simp only [GetNext.get_next_issue, GetNext.Outcome.ok.injEq] at h
    obtain ⟨h1, h2⟩ := h
    subst h2
    obtain ⟨hmem, hnot⟩ := scanIssues_none runDeps _ h1
    refine ⟨List.mem_cons_of_mem _ hmem, ?_⟩
    intro n hx
    rcases List.mem_cons.1 hx with heq | hx2
    · refine absurd heq (ne_of_headC ?_)
      have hmsg : headC ("📋 ai:ready ラベルのIssue: "
          ++ toString (GetNext.gnSorted pool).length ++ "件") = some '📋' := by
        apply headC_append_lit
        apply headC_append_lit
        rfl
      rw [closedMsg_headC, hmsg]
      simp
    · exact hnot n hx2
  · intro pool fn hcl d hd
    have hd2 : d ∈ GetPrior.gpProcess pool := (List.perm_insertionSort _ _).subset hd
    obtain ⟨i, hi, hfi⟩ := List.mem_map.1 hd2
    have hiopen := List.of_mem_filter hi
    have hnum : d.number = i.number := by
      by_cases hb : ((GetPrior.dataOf i).status == "ready"
          && !GetPrior.check_dependencies (GetPrior.statusDict pool) (some i.body)) = true
      · rw [if_pos hb] at hfi
        rw [← hfi]
        rfl
      · rw [if_neg hb] at hfi
        rw [← hfi]
        rfl
    by_contra hbe
    have hbe2 : (d.number == fn) = true := by
      cases hx : (d.number == fn)
      · exact absurd hx hbe
      · rfl
    have hdn : d.number = fn := beq_iff_eq.1 hbe2
    have hst : i.state = IssueState.closed :=
      hcl i (List.mem_of_mem_filter hi) (by rw [← hnum, hdn])
    rw [hst] at hiopen
    simp at hiopen
  · intro pool fn h
    have happ : GetPrior.gpApplyForce (some fn) (GetPrior.gpSorted pool)
        = GetPrior.gpSorted pool := by
      show (match GetPrior.gpForceFront fn (GetPrior.gpSorted pool) with
        | some (d, rest) => ({ d with status := "ready" } : GetPrior.IssueData) :: rest
        | none => GetPrior.gpSorted pool) = GetPrior.gpSorted pool
      rw [gpForceFront_none fn _ h]
    unfold GetPrior.gpNextForce
    rw [happ]
    rfl

/-- Concrete instantiation of `C4_forced_override`. -/
theorem C4_witness :
    GetNext.get_next_issue (some 7)
        (fun _ => some ⟨7, "t", ["P1"], "", IssueState.closed, false⟩) [] (fun _ => true)
      = GetNext.Outcome.ok none [GetNext.closedMsg 7]
    ∧ GetNext.get_next_issue (some 8)
        (fun _ => some ⟨8, "u", ["P0"], "", IssueState.opened, false⟩) [] (fun _ => false)
      = GetNext.Outcome.ok (some ⟨8, "u", "P0"⟩) [GetNext.forcedMsg 8]
    ∧ GetNext.closedMsg 7 ≠ GetNext.noRunnableMsg
    ∧ (∀ d ∈ GetPrior.gpSorted [⟨99, "y", [], "", IssueState.closed, false⟩],
        (d.number == 99) = false)
    ∧ GetPrior.gpNextForce (some 99) [⟨1, "x", [], "", IssueState.opened, false⟩]
      = GetPrior.gpNext [⟨1, "x", [], "", IssueState.opened, false⟩] :=
  ⟨C4_forced_override.2.1 7 _ [] (fun _ => true) _ rfl rfl,
   C4_forced_override.1 8 _ [] (fun _ => false) _ rfl rfl,
   C4_forced_override.2.2.1 7,
   C4_forced_override.2.2.2.2.1 [⟨99, "y", [], "", IssueState.closed, false⟩] 99 (by decide),
   C4_forced_override.2.2.2.2.2 [⟨1, "x", [], "", IssueState.opened, false⟩] 99 (by decide)⟩

/-! ## Failure markers and selection (C5) -/

/-- Claim C5 counterexample: the open item `#1` carries the failure marker
`ai:failed` (and `ai:task`, making it a candidate); classification assigns
`needs_human_intervention`, yet `choose_next_issue.main` — which never
consults failure markers — returns exactly this item. -/
theorem C5_counterexample :
    GetPrior.get_issue_status ["ai:task", "ai:failed", "P0"] = "needs_human_intervention"
    ∧ ChooseNext.chooseNext (fun _ => none)
        [⟨1, "x", ["ai:task", "ai:failed", "P0"], "", IssueState.opened, false⟩] = some 1 := by
  decide

/-- A record can only be classified `"ready"` when no failure marker is
present. -/
theorem status_ready_no_failure (labels : List String)
    (h : GetPrior.get_issue_status labels = "ready") :
    GetPrior.failureLabels.any (labels.contains ·) = false := by
  unfold GetPrior.get_issue_status at h
  by_cases h1 : GetPrior.progressLabels.any (labels.contains ·) = true
  · rw [if_pos h1] at h
    exact absurd h (by decide)
  · rw [if_neg h1] at h
    by_cases h2 : GetPrior.failureLabels.any (labels.contains ·) = true
    · rw [if_pos h2] at h
      exact absurd h (by decide)
    · exact Bool.eq_false_iff.2 h2

/-- Claim C5 (amended): classification (`get_issue_status`) assigns
`needs_human_intervention` to every item carrying a failure marker unless an
in-progress/completed marker takes precedence, and in the
`get_prioritized_issues.py` pipeline the reported next issue always
corresponds to a pool item classified `"ready"`, hence never one carrying a
failure marker; but `choose_next_issue.main` does not consult failure
markers, so a failure-marked item carrying the `ai:task` candidate label can
be returned there — see the counterexample. -/
theorem C5_failure_never_selected :
    (∀ labels : List String,
      GetPrior.failureLabels.any (labels.contains ·) = true →
      GetPrior.progressLabels.any (labels.contains ·) = false →
      GetPrior.get_issue_status labels = "needs_human_intervention")
    ∧ (∀ labels : List String,
      GetPrior.progressLabels.any (labels.contains ·) = true →
      GetPrior.get_issue_status labels = "in_progress")
    ∧ (∀ (pool : List Issue) (n : Nat), GetPrior.gpNext pool = some n →
      ∃ i, i ∈ pool ∧ i.number = n
        ∧ GetPrior.get_issue_status i.labels = "ready"
        ∧ GetPrior.failureLabels.any (i.labels.contains ·) = false) := by
  refine ⟨?_, ?_, ?_⟩
  · intro labels h1 h2
    unfold GetPrior.get_issue_status
    rw [if_neg (by rw [h2]; exact Bool.false_ne_true), if_pos h1]
  · intro labels h1
    unfold GetPrior.get_issue_status
    rw [if_pos h1]
  · intro pool n h
    obtain ⟨d, hfind, hnum⟩ := Option.map_eq_some'.1 h
    have hd2 : d ∈ GetPrior.gpSorted pool := List.mem_of_find?_eq_some hfind
    have hready : (d.status == "ready") = true :=
      @List.find?_some GetPrior.IssueData (fun d => d.status == "ready") d
        (GetPrior.gpSorted pool) hfind
    have hready' : d.status = "ready" := beq_iff_eq.1 hready
    have hd3 : d ∈ GetPrior.gpProcess pool :=
      (List.perm_insertionSort _ _).subset hd2
    obtain ⟨i, hi, hfi⟩ := List.mem_map.1 hd3
    have hipool : i ∈ pool := List.mem_of_mem_filter hi
    by_cases hb : ((GetPrior.dataOf i).status == "ready"
        && !GetPrior.check_dependencies (GetPrior.statusDict pool) (some i.body)) = true
    · exfalso
      rw [if_pos hb] at hfi
      rw [← hfi] at hready'
      have hbd : ({ GetPrior.dataOf i with
          status := "blocked_by_dependency" } : GetPrior.IssueData).status
          = "blocked_by_dependency" := rfl
      rw [hbd] at hready'
      exact absurd hready' (by decide)
    · rw [if_neg hb] at hfi
      subst hfi
      have hstatus : GetPrior.get_issue_status i.labels = "ready" := hready'
      exact ⟨i, hipool, hnum, hstatus, status_ready_no_failure i.labels hstatus⟩

/-- Concrete instantiation of `C5_failure_never_selected`. -/
theorem C5_witness :
    GetPrior.get_issue_status ["ai:failed", "P0"] = "needs_human_intervention"
    ∧ (∃ i, i ∈ [(⟨1, "x", [], "", IssueState.opened, false⟩ : Issue)] ∧ i.number = 1
        ∧ GetPrior.get_issue_status i.labels = "ready"
        ∧ GetPrior.failureLabels.any (i.labels.contains ·) = false) :=
  ⟨C5_failure_never_selected.1 ["ai:failed", "P0"] (by decide) (by decide),
   C5_failure_never_selected.2.2 [⟨1, "x", [], "", IssueState.opened, false⟩] 1 (by decide)⟩
